import Mathlib

/-!
# Verification of the auth-service Identity and Session Core

Shallow embedding of the core of the auth-service repository:

* src/libs/jwt.ts — access-token signing and verification (HS256 modeled
  symbolically: a signature binds the exact key and payload it was produced
  over, i.e. an idealized collision-free MAC);
* src/modules/identity/service.ts and repository.ts — login and the
  refresh-token rotation state machine over the auth.refresh_tokens table;
* src/plugins/tenant-db-context.ts — the per-request transaction
  finalization guard;
* the Redis helpers (short locks) and src/libs/idempotency.ts — the
  idempotency-record upsert.

Database tables are modeled as in-memory lists of rows; each repository
function is translated statement by statement from the SQL it issues.
Sources of nondeterminism in the code (randomUUID, Date.now) are passed in
as explicit arguments.  SQL functions that live in the database
(auth.resolve_login_candidate, auth.resolve_user_auth_context) are
parameters of the environment, since only their row shape is visible to the
TypeScript code.
-/

set_option autoImplicit false

namespace AuthService

/-! ## JWT payload model (src/libs/jwt.ts)

The claim names read or written by jwt.ts form a fixed finite set, so the
JSON object keys are modeled as an enumeration; values are modeled by the
JSON value shapes the code distinguishes (string, number, string array,
null). -/

deriving instance DecidableEq for Except

/-- Claim names appearing in access-token payloads in src/libs/jwt.ts. -/
inductive ClaimKey
  | typ | ver | tenant_id | tid | sid | role | roles | plan | scope
  | sub | jti | iat | exp | iss | aud | nbf
deriving DecidableEq, Repr

/-- JSON claim values as distinguished by jwt.ts (string, number, array of
strings, null). -/
inductive ClaimVal
  | str (s : String)
  | num (n : Int)
  | strList (l : List String)
  | nul
deriving DecidableEq, Repr

/-- A JWT payload: a JS object, modeled as an association list. -/
abbrev Payload := List (ClaimKey × ClaimVal)

/-- Property read on a JS object (returns undefined when absent). -/
def pget (p : Payload) (k : ClaimKey) : Option ClaimVal :=
  (p.find? (fun e => decide (e.1 = k))).map (·.2)

/-- Property write on a JS object (replaces an existing key, else appends). -/
def pset (p : Payload) (k : ClaimKey) (v : ClaimVal) : Payload :=
  if p.any (fun e => decide (e.1 = k)) then
    p.map (fun e => if e.1 = k then (k, v) else e)
  else
    p ++ [(k, v)]

/-- Property deletion on a JS object. -/
def pdel (p : Payload) (k : ClaimKey) : Payload :=
  p.filter (fun e => decide (e.1 ≠ k))

/-- JS String.prototype.trim, modeled executably over the character list
(whitespace stripped from both ends). -/
def jsTrim (s : String) : String :=
  ⟨((s.data.dropWhile Char.isWhitespace).reverse.dropWhile Char.isWhitespace).reverse⟩

/-- JS String.prototype.toLowerCase at the ASCII level used by this code. -/
def jsToLower (s : String) : String :=
  ⟨s.data.map Char.toLower⟩

/-- Hex digit check used by the UUID format test. -/
def isHexDigit (c : Char) : Bool :=
  c.isDigit || (('a' ≤ c && c ≤ 'f') || ('A' ≤ c && c ≤ 'F'))

/-- Per-position character test of the UUID_RE regular expression in
src/libs/jwt.ts: 8-4-4-4-12 hex groups, version digit 1-5 at index 14,
variant nibble 8, 9, a or b at index 19, case-insensitive. -/
def uuidCharOk (i : Nat) (c : Char) : Bool :=
  if i = 8 || i = 13 || i = 18 || i = 23 then c = '-'
  else if i = 14 then '1' ≤ c && c ≤ '5'
  else if i = 19 then c = '8' || c = '9' || c = 'a' || c = 'b' || c = 'A' || c = 'B'
  else isHexDigit c

/-- Check a character list against UUID_RE starting at position i. -/
def uuidCharsOk : Nat → List Char → Bool
  | _, [] => true
  | i, c :: cs => uuidCharOk i c && uuidCharsOk (i + 1) cs

/-- UUID_RE.test from src/libs/jwt.ts. -/
def isUuid (s : String) : Bool :=
  s.data.length = 36 && uuidCharsOk 0 s.data

/-- A signed JWT.  The HS256 signature is modeled symbolically: the sig
fields record exactly the key and payload the token was signed over, so a
signature check is equality of the carried payload with the signed one and
of the verifying key with the signing one (ideal unforgeable MAC).  A
tampered token is one whose payload differs from its signed payload. -/
structure Jwt where
  payload : Payload
  sigKey : String
  sigPayload : Payload
deriving DecidableEq, Repr

/-- Options passed to jose jwtVerify by verifyAccessToken. -/
structure VerifyOptions where
  issuer : String
  audience : String
  clockTolerance : Int
deriving DecidableEq, Repr

/-- Model of jose jwtVerify at the level used by src/libs/jwt.ts: signature
check against one symmetric key, then issuer, audience, and nbf/exp with the
configured clock tolerance.  Returns the (trusted) payload. -/
def jwtVerify (token : Jwt) (key : String) (opts : VerifyOptions) (now : Int) :
    Except String Payload :=
  if token.sigKey ≠ key ∨ token.sigPayload ≠ token.payload then
    .error "signature_verification_failed"
  else if pget token.payload .iss ≠ some (.str opts.issuer) then
    .error "unexpected_iss"
  else if pget token.payload .aud ≠ some (.str opts.audience) then
    .error "unexpected_aud"
  else if (match pget token.payload .nbf with
           | some (.num n) => decide (now + opts.clockTolerance < n)
           | _ => false) then
    .error "nbf_in_future"
  else if (match pget token.payload .exp with
           | some (.num e) => decide (e ≤ now - opts.clockTolerance)
           | _ => false) then
    .error "exp_in_past"
  else
    .ok token.payload

/-- Key material and issuer configuration of src/libs/jwt.ts (loaded from
env at module initialization). -/
structure JwtEnv where
  activeSecret : String
  previousSecret : Option String := none
  issuer : String := "auth-service"
  audience : String := "auth-client"
  defaultScope : String := ""
  clockSkewSec : Int := 0
deriving Repr

/-- VerifyOptions built by verifyAccessToken from the module configuration. -/
def verifyOptionsOf (env : JwtEnv) : VerifyOptions :=
  { issuer := env.issuer, audience := env.audience, clockTolerance := env.clockSkewSec }

/-- AccessTokenExtraClaims from src/libs/jwt.ts. -/
structure AccessTokenExtraClaims where
  sid : Option String := none
  ver : Option Int := none
  role : Option String := none
  roles : Option (List String) := none
  plan : Option String := none
deriving DecidableEq, Repr

/-- Normalization shared by the tenant and sid arguments of signAccessToken:
a value that is undefined, null or the empty string is treated as absent. -/
def presentNonEmpty (o : Option String) : Option String :=
  match o with
  | none => none
  | some t => if t = "" then none else some t

/-- The assertUuid guard on an optional value: fails exactly when a value
is present and not UUID-shaped. -/
def uuidGuardFails (o : Option String) : Bool :=
  match o with
  | some t => ! isUuid t
  | none => false

/-- The claim object literal passed to the SignJWT constructor by
signAccessToken: typ, ver, the optional tenant pair, sid, role, roles,
plan and default scope, in source order. -/
def accessClaimsBase (ver : Int) (tenant sidC roleC : Option String)
    (rolesC : Option (List String)) (planC : Option String)
    (scope : String) : Payload :=
  [(.typ, .str "access"), (.ver, .num ver)]
  ++ (match tenant with
      | some t => [(.tenant_id, .str t), (.tid, .str t)]
      | none => [])
  ++ (match sidC with | some s => [(.sid, .str s)] | none => [])
  ++ (match roleC with
      | some r => if r = "" then [] else [(.role, .str r)]
      | none => [])
  ++ (match rolesC with | some rs => [(.roles, .strList rs)] | none => [])
  ++ (match planC with
      | some pl => if pl = "" then [] else [(.plan, .str pl)]
      | none => [])
  ++ (if jsTrim scope = "" then [] else [(.scope, .str (jsTrim scope))])

/-- signAccessToken from src/libs/jwt.ts.  The fresh jti (crypto.randomUUID)
and the clock (Date.now in seconds) are explicit arguments.  Returns the
signed token together with its exp claim. -/
def signAccessToken (env : JwtEnv) (now : Int) (jti : String) (sub : String)
    (tenantId : Option String) (ttlSec : Int) (extra : AccessTokenExtraClaims) :
    Except String (Jwt × Int) :=
  if sub = "" then .error "sub_missing"
  else
    -- tenantId !== undefined && !== null && !== "" → assertUuid, else undefined
    let tenant : Option String := presentNonEmpty tenantId
    if uuidGuardFails tenant then
      .error "tenant_id_invalid"
    else
      -- extraClaims.sid is only checked when truthy (nonempty)
      let sidC : Option String := presentNonEmpty extra.sid
      if uuidGuardFails sidC then
        .error "sid_invalid"
      else
        let ver : Int := extra.ver.getD 1
        let expiry : Int := now + ttlSec
        let base : Payload :=
          accessClaimsBase ver tenant sidC extra.role extra.roles extra.plan
            env.defaultScope
        let payload : Payload :=
          pset (pset (pset (pset (pset (pset base
            .sub (.str sub)) .jti (.str jti)) .iat (.num now)) .exp (.num expiry))
            .iss (.str env.issuer)) .aud (.str env.audience)
        .ok ({ payload := payload, sigKey := env.activeSecret, sigPayload := payload }, expiry)

/-- The raw tenant claim read by verifyAccessToken:
payload.tenant_id ?? payload.tid (nullish coalescing). -/
def tenantRawClaim (p : Payload) : Option ClaimVal :=
  match pget p .tenant_id with
  | some .nul => pget p .tid
  | none => pget p .tid
  | some v => some v

/-- The presence test raw !== undefined && raw !== null && raw !== "" in
verifyAccessToken. -/
def tenantClaimPresent : Option ClaimVal → Bool
  | none => false
  | some .nul => false
  | some (.str s) => s ≠ ""
  | some _ => true

/-- Claim enforcement block of verifyAccessToken (the code after the
try/catch in src/libs/jwt.ts, operating on the signature-verified payload):
typ, sub, jti, tenant_id/tid, sid and ver checks, with the tenant claim
normalized or removed and an absent ver defaulted to 1. -/
def enforceAccessClaims (p0 : Payload) : Except String Payload :=
  if pget p0 .typ ≠ some (.str "access") then .error "invalid_token_type"
  else if (match pget p0 .sub with | some (.str s) => decide (s = "") | _ => true) then
    .error "sub_missing"
  else if (match pget p0 .jti with | some (.str s) => decide (s = "") | _ => true) then
    .error "jti_missing"
  else
    -- const tokenTenantRaw = payload.tenant_id ?? payload.tid
    let raw : Option ClaimVal := tenantRawClaim p0
    if tenantClaimPresent raw = true then
      match raw with
      | some (.str t) =>
        if ¬ isUuid t = true then .error "tenant_id_invalid"
        else
          let p1 := pset (pset p0 .tenant_id (.str t)) .tid (.str t)
          enforceSidVer p1
      | _ => .error "tenant_id_invalid"
    else
      let p1 := pdel (pdel p0 .tenant_id) .tid
      enforceSidVer p1
where
  /-- Trailing sid and ver checks of verifyAccessToken. -/
  enforceSidVer (p1 : Payload) : Except String Payload :=
    match pget p1 .sid with
    | some (.str s) =>
      if ¬ isUuid s = true then .error "sid_invalid" else enforceVer p1
    | some _ => .error "sid_invalid"
    | none => enforceVer p1
  /-- Final ver check of verifyAccessToken: a present ver must be a number
  at least 1; an absent one is set to 1 on the returned payload. -/
  enforceVer (p1 : Payload) : Except String Payload :=
    match pget p1 .ver with
    | some (.num n) => if n < 1 then .error "ver_invalid" else .ok p1
    | some _ => .error "ver_invalid"
    | none => .ok (pset p1 .ver (.num 1))

/-- verifyAccessToken from src/libs/jwt.ts: verify the signature with the
active key, falling back to the previous key only when active verification
throws and a previous key is configured, then enforce the access-token
claim schema on the verified payload. -/
def verifyAccessToken (env : JwtEnv) (now : Int) (token : Jwt) :
    Except String Payload :=
  let opts := verifyOptionsOf env
  match jwtVerify token env.activeSecret opts now with
  | .ok p => enforceAccessClaims p
  | .error activeError =>
    match env.previousSecret with
    | none => .error activeError
    | some prev =>
      match jwtVerify token prev opts now with
      | .ok p => enforceAccessClaims p
      | .error e => .error e

/-! ## Identity module: stores and repository functions
(src/modules/identity/repository.ts) -/

/-- SHA-256 hex digest of an opaque token (hashOpaqueToken in
src/libs/crypto.ts), modeled symbolically as a free constructor: the ideal
hash is injective, distinct tokens have distinct digests. -/
structure OpaqueHash where
  ofToken : String
deriving DecidableEq, Repr

/-- hashOpaqueToken from src/libs/crypto.ts (symbolic SHA-256). -/
def hashOpaqueToken (token : String) : OpaqueHash := ⟨token⟩

/-- Row of auth.refresh_tokens as selected by the identity repository.
Timestamps are Unix milliseconds. -/
structure RefreshTokenRow where
  id : Nat
  user_id : String
  token_hash : OpaqueHash
  family_id : String
  replaced_by : Option Nat := none
  revoked_at : Option Int := none
  created_at : Int
  expires_at : Int
deriving DecidableEq, Repr

/-- The auth.refresh_tokens table: its rows plus the id-generator state
(gen_random_uuid for the primary key, modeled as a counter producing fresh
ids). -/
structure RefreshStore where
  rows : List RefreshTokenRow := []
  nextId : Nat := 0
deriving DecidableEq, Repr

/-- createRefreshTokenRecord from src/modules/identity/repository.ts:
INSERT INTO auth.refresh_tokens with expiry now + ttlSec seconds, RETURNING
the created row.  Both core callers pass an explicit family id, so the
COALESCE default is not modeled.  Returns the new store and the row. -/
def createRefreshTokenRecord (st : RefreshStore) (userId : String)
    (tokenHash : OpaqueHash) (ttlSec : Int) (familyId : String) (now : Int) :
    RefreshStore × RefreshTokenRow :=
  let row : RefreshTokenRow :=
    { id := st.nextId, user_id := userId, token_hash := tokenHash,
      family_id := familyId, created_at := now, expires_at := now + ttlSec * 1000 }
  ({ rows := st.rows ++ [row], nextId := st.nextId + 1 }, row)

/-- findRefreshTokenByHash from src/modules/identity/repository.ts:
SELECT ... WHERE token_hash = $1 LIMIT 1 (no revocation or expiry filter). -/
def findRefreshTokenByHash (st : RefreshStore) (h : OpaqueHash) :
    Option RefreshTokenRow :=
  st.rows.find? (fun r => decide (r.token_hash = h))

/-- markRefreshTokenRotated from src/modules/identity/repository.ts:
UPDATE auth.refresh_tokens SET revoked_at = now(), replaced_by = $2
WHERE id = $1 AND revoked_at IS NULL; returns whether rowCount = 1. -/
def markRefreshTokenRotated (st : RefreshStore) (tokenId : Nat)
    (replacedById : Nat) (now : Int) : RefreshStore × Bool :=
  let rowCount := st.rows.countP (fun r => decide (r.id = tokenId ∧ r.revoked_at = none))
  let rows := st.rows.map fun r =>
    if r.id = tokenId ∧ r.revoked_at = none then
      { r with revoked_at := some now, replaced_by := some replacedById }
    else r
  ({ st with rows := rows }, rowCount == 1)

/-- deleteRefreshTokenById from src/modules/identity/repository.ts:
DELETE FROM auth.refresh_tokens WHERE id = $1. -/
def deleteRefreshTokenById (st : RefreshStore) (tokenId : Nat) : RefreshStore :=
  { st with rows := st.rows.filter (fun r => decide (r.id ≠ tokenId)) }

/-- revokeRefreshFamily from src/modules/identity/repository.ts:
UPDATE auth.refresh_tokens SET revoked_at = now()
WHERE family_id = $1 AND revoked_at IS NULL; returns the affected-row
count (already-revoked rows are not matched, hence untouched). -/
def revokeRefreshFamily (st : RefreshStore) (familyId : String) (now : Int) :
    RefreshStore × Nat :=
  let rows := st.rows.map fun r =>
    if r.family_id = familyId ∧ r.revoked_at = none then
      { r with revoked_at := some now }
    else r
  ({ st with rows := rows },
   st.rows.countP (fun r => decide (r.family_id = familyId ∧ r.revoked_at = none)))

/-- Row of auth.sessions. -/
structure SessionRow where
  id : String
  user_id : String
  created_at : Int
  expires_at : Int
  revoked_at : Option Int := none
deriving DecidableEq, Repr

/-- createSession from src/modules/identity/repository.ts: INSERT INTO
auth.sessions with expiry now + ttlSec seconds (the login service always
supplies the session id). -/
def createSession (sessions : List SessionRow) (sessionId : String)
    (userId : String) (ttlSec : Int) (now : Int) :
    List SessionRow × SessionRow :=
  let row : SessionRow :=
    { id := sessionId, user_id := userId, created_at := now,
      expires_at := now + ttlSec * 1000 }
  (sessions ++ [row], row)

/-- Row returned by the database function auth.resolve_login_candidate
(LoginCandidateRow in src/modules/identity/types.ts). -/
structure LoginCandidateRow where
  id : String
  tenant_id : Option String := none
  email : String
  password_hash : String
  is_active : Bool
  verified_at : Option Int := none
deriving DecidableEq, Repr

/-- Row returned by the database function auth.resolve_user_auth_context. -/
structure AuthContextRow where
  tenant_id : Option String := none
  role : Option String := none
  plan_code : Option String := none
  role_names : Option (List String) := none
deriving DecidableEq, Repr

/-- Normalized auth context produced by resolveUserAuthContext. -/
structure UserAuthContext where
  tenantId : Option String := none
  role : String
  roles : List String
  plan : String
deriving DecidableEq, Repr

/-- resolveUserAuthContext from src/modules/identity/repository.ts: query
auth.resolve_user_auth_context (a database function, passed as the fetch
parameter), throw resolve_user_auth_context_failed when no row comes back,
and normalize role, roles and plan exactly as the TypeScript does. -/
def resolveUserAuthContext
    (fetch : String → Option String → Option AuthContextRow)
    (userId : String) (requestedTenantId : Option String) :
    Except String UserAuthContext :=
  match fetch userId requestedTenantId with
  | none => .error "resolve_user_auth_context_failed"
  | some row =>
    let rolesFromDb := (row.role_names.getD []).filter (fun v => decide (jsTrim v ≠ ""))
    let roleRaw := jsTrim (row.role.getD (rolesFromDb.headD "member"))
    let role := if roleRaw = "" then "member" else roleRaw
    let roles := if rolesFromDb ≠ [] then rolesFromDb else [role]
    .ok { tenantId := row.tenant_id, role := role, roles := roles,
          plan := row.plan_code.getD "free" }

/-! ## Identity service (src/modules/identity/service.ts) -/

/-- TTL constants from src/modules/identity/service.ts. -/
def ACCESS_TTL_SEC : Int := 60 * 15

/-- Refresh-token lifetime, 30 days, from src/modules/identity/service.ts. -/
def REFRESH_TTL_SEC : Int := 60 * 60 * 24 * 30

/-- Fixed dummy argon2id hash used for timing hardening in
src/modules/identity/service.ts. -/
def DUMMY_PASSWORD_HASH : String :=
  "$argon2id$v=19$m=65536,t=3,p=1$IrPUm8rK8bWhiyu2hAQnIg$H2ht46hQgLVOe5TZB6EPU2nlPJ6jYFEbJgNUiLUbk9M"

/-- Error conditions thrown by the identity service: the three service
error classes, the repository context-resolution failure, and errors
propagated from signAccessToken. -/
inductive IdentityError
  | refreshFailedError
  | loginFailedError
  | refreshReuseDetectedError
  | resolveUserAuthContextFailed
  | jwtError (msg : String)
deriving DecidableEq, Repr

/-- External collaborators of the identity service: jwt configuration, the
two database functions, and the argon2 password verifier (verifyPassword in
src/libs/crypto.ts, taking hash then plain password). -/
structure IdentityEnv where
  jwt : JwtEnv
  resolveLoginCandidate : String → Option String → Option LoginCandidateRow
  resolveAuthContextRow : String → Option String → Option AuthContextRow
  verifyPassword : String → String → Bool

/-- findLoginCandidateByEmail from src/modules/identity/repository.ts:
query auth.resolve_login_candidate with the lowercased email. -/
def findLoginCandidateByEmail (env : IdentityEnv) (email : String)
    (requestedTenantId : Option String) : Option LoginCandidateRow :=
  env.resolveLoginCandidate (jsToLower email) requestedTenantId

/-- LoginInput from src/modules/identity/types.ts. -/
structure LoginInput where
  email : String
  password : String
  requestedTenantId : Option String := none

/-- RefreshInput from src/modules/identity/types.ts. -/
structure RefreshInput where
  refreshToken : String
  requestedTenantId : Option String := none

/-- RefreshResult from src/modules/identity/types.ts (access token modeled
as the signed Jwt value). -/
structure RefreshResult where
  accessToken : Jwt
  accessTokenExpiresAt : Int
  refreshToken : String
  refreshTokenExpiresAt : Int
deriving DecidableEq, Repr

/-- The user block of LoginResult. -/
structure LoginUser where
  id : String
  email : String
  tenantId : Option String := none
  role : String
  roles : List String
  plan : String
deriving DecidableEq, Repr

/-- LoginResult from src/modules/identity/types.ts. -/
structure LoginResult where
  user : LoginUser
  sessionId : String
  accessToken : Jwt
  accessTokenExpiresAt : Int
  refreshToken : String
  refreshTokenExpiresAt : Int
deriving DecidableEq, Repr

/-- Mutable database state touched by the identity service. -/
structure AuthDb where
  sessions : List SessionRow := []
  refreshTokens : RefreshStore := {}
deriving DecidableEq, Repr

/-- Outcome of loginWithEmailPassword: the database state, the list of
(hash, password) arguments passed to the credential verifier during the
attempt, and the result. -/
structure LoginOutcome where
  db : AuthDb
  verifierCalls : List (String × String)
  result : Except IdentityError LoginResult

/-- loginWithEmailPassword from src/modules/identity/service.ts.  The
fresh session id, opaque refresh token and jti (randomUUID) and the clock
(Unix milliseconds) are explicit arguments.  Password verification is
always performed exactly once, against the stored hash when a candidate
row exists and against DUMMY_PASSWORD_HASH otherwise; every guard failure
throws the generic LoginFailedError. -/
def loginWithEmailPassword (env : IdentityEnv) (db : AuthDb)
    (params : LoginInput) (sessionId refreshToken newJti : String)
    (now : Int) : LoginOutcome :=
  let user := findLoginCandidateByEmail env params.email params.requestedTenantId
  let passwordHash := match user with
    | some u => u.password_hash
    | none => DUMMY_PASSWORD_HASH
  let ok := env.verifyPassword passwordHash params.password
  let verifierCalls := [(passwordHash, params.password)]
  match user with
  | none => { db := db, verifierCalls := verifierCalls, result := .error .loginFailedError }
  | some u =>
    if u.is_active = false ∨ u.verified_at = none ∨ ok = false then
      { db := db, verifierCalls := verifierCalls, result := .error .loginFailedError }
    else
      match resolveUserAuthContext env.resolveAuthContextRow u.id params.requestedTenantId with
      | .error _ =>
        { db := db, verifierCalls := verifierCalls,
          result := .error .resolveUserAuthContextFailed }
      | .ok ctx =>
        let primaryRole := ctx.role
        let plan := if ctx.plan = "" then "free" else ctx.plan
        let tenantId := ctx.tenantId
        let sessions1 := (createSession db.sessions sessionId u.id ACCESS_TTL_SEC now).1
        match signAccessToken env.jwt (now / 1000) newJti u.id tenantId ACCESS_TTL_SEC
            { sid := some sessionId, ver := some 1, role := some primaryRole,
              roles := some ctx.roles, plan := some plan } with
        | .error e =>
          { db := { db with sessions := sessions1 }, verifierCalls := verifierCalls,
            result := .error (.jwtError e) }
        | .ok (tok, tokExp) =>
          let rts := (createRefreshTokenRecord db.refreshTokens u.id
            (hashOpaqueToken refreshToken) REFRESH_TTL_SEC sessionId now).1
          { db := { sessions := sessions1, refreshTokens := rts },
            verifierCalls := verifierCalls,
            result := .ok
              { user := { id := u.id, email := u.email, tenantId := tenantId,
                          role := primaryRole, roles := ctx.roles, plan := plan },
                sessionId := sessionId, accessToken := tok,
                accessTokenExpiresAt := tokExp, refreshToken := refreshToken,
                refreshTokenExpiresAt := now / 1000 + REFRESH_TTL_SEC } }

/-- refreshWithToken from src/modules/identity/service.ts: hash the
presented opaque token, look it up without filters; a row with replaced_by
set is a reuse event (revoke the whole family, distinguished error,
checked before the revocation and expiry guard); a revoked or expired row
fails generically; otherwise re-resolve the auth context, insert the
successor token in the same family, atomically mark the old row rotated,
and on a lost race (conditional update affected no row) delete the
successor and fail generically; finally mint the new access token.  The
fresh successor token and jti and the clock are explicit arguments.
Returns the database state (reflecting the writes performed before any
throw) and the result. -/
def refreshWithToken (env : IdentityEnv) (st : RefreshStore)
    (params : RefreshInput) (newRefreshToken newJti : String) (now : Int) :
    RefreshStore × Except IdentityError RefreshResult :=
  let incomingTokenHash := hashOpaqueToken params.refreshToken
  match findRefreshTokenByHash st incomingTokenHash with
  | none => (st, .error .refreshFailedError)
  | some stored =>
    if stored.replaced_by ≠ none then
      ((revokeRefreshFamily st stored.family_id now).1, .error .refreshReuseDetectedError)
    else if stored.revoked_at ≠ none ∨ stored.expires_at ≤ now then
      (st, .error .refreshFailedError)
    else
      match resolveUserAuthContext env.resolveAuthContextRow stored.user_id
          params.requestedTenantId with
      | .error _ => (st, .error .resolveUserAuthContextFailed)
      | .ok ctx =>
        let roles := if ctx.roles ≠ [] then ctx.roles else ["member"]
        let primaryRole :=
          if ctx.role ≠ "" then ctx.role
          else if roles.headD "" ≠ "" then roles.headD "" else "member"
        let plan := if ctx.plan = "" then "free" else ctx.plan
        let created := createRefreshTokenRecord st stored.user_id
          (hashOpaqueToken newRefreshToken) REFRESH_TTL_SEC stored.family_id now
        let marked := markRefreshTokenRotated created.1 stored.id created.2.id now
        if marked.2 = false then
          (deleteRefreshTokenById marked.1 created.2.id, .error .refreshFailedError)
        else
          match signAccessToken env.jwt (now / 1000) newJti stored.user_id
              ctx.tenantId ACCESS_TTL_SEC
              { sid := some stored.family_id, ver := some 1,
                role := some primaryRole, roles := some roles, plan := some plan } with
          | .error e => (marked.1, .error (.jwtError e))
          | .ok (tok, tokExp) =>
            (marked.1, .ok
              { accessToken := tok, accessTokenExpiresAt := tokExp,
                refreshToken := newRefreshToken,
                refreshTokenExpiresAt := now / 1000 + REFRESH_TTL_SEC })

/-! ## Per-request transaction finalization
(src/plugins/tenant-db-context.ts) -/

/-- Finalization mode: commit on the onResponse path, rollback on the
onError path. -/
inductive TxMode
  | commit
  | rollback
deriving DecidableEq, Repr

/-- Observable effects of finalizeTx on the database connection: the
COMMIT or ROLLBACK query, and releasing the pooled client. -/
inductive TxAction
  | queryCommit
  | queryRollback
  | release
deriving DecidableEq, Repr

/-- Per-request transaction state (TxState in
src/plugins/tenant-db-context.ts); the client field tracks whether a
pooled client is held. -/
structure TxState where
  hasClient : Bool := false
  inTx : Bool := false
  finalized : Bool := false
deriving DecidableEq, Repr

/-- The query issued by finalizeTx for a mode. -/
def txQueryAction : TxMode → TxAction
  | .commit => .queryCommit
  | .rollback => .queryRollback

/-- finalizeTx from src/plugins/tenant-db-context.ts.  A finalized request
is a no-op; otherwise the finalized flag is set and the client handle
cleared first, the COMMIT/ROLLBACK query is attempted only when a
transaction is open, and the client release is attempted in the finally
block whether or not that query throws (queryFails; the failure is only
logged).  Returns the new state and the trace of attempted actions. -/
def finalizeTx (s : TxState) (mode : TxMode) (queryFails : Bool) :
    TxState × List TxAction :=
  if s.finalized then (s, [])
  else
    let s1 : TxState := { s with finalized := true, hasClient := false }
    if s.hasClient = false then (s1, [])
    else
      let queryActs := if s.inTx then [txQueryAction mode] else []
      let _ := queryFails -- the catch block only logs; the trace is unaffected
      ({ s1 with inTx := false }, queryActs ++ [TxAction.release])

/-- A sequence of finalizeTx invocations as performed by the onResponse and
onError hooks (possibly retried); each entry is the mode and whether the
finalization query would fail. -/
def runFinalizeSeq (s : TxState) : List (TxMode × Bool) → TxState × List TxAction
  | [] => (s, [])
  | c :: cs =>
    let step := finalizeTx s c.1 c.2
    let rest := runFinalizeSeq step.1 cs
    (rest.1, step.2 ++ rest.2)

/-! ## Redis short locks (src/libs/redis.ts) -/

/-- The Redis keyspace relevant to locks: string keys to string values.
TTL expiry is not an action of this code; it shows up as the key being
absent or rebound by another caller. -/
abbrev RedisStore := List (String × String)

/-- Redis GET. -/
def redisGet (st : RedisStore) (k : String) : Option String :=
  (st.find? (fun e => decide (e.1 = k))).map (·.2)

/-- Redis DEL of one key: removes its bindings and returns the number of
keys deleted. -/
def redisDel (st : RedisStore) (k : String) : RedisStore × Nat :=
  (st.filter (fun e => decide (e.1 ≠ k)), st.countP (fun e => decide (e.1 = k)))

/-- Redis SET key value PX ttl NX: stores only when the key is absent and
reports whether it did ("OK" versus null). -/
def redisSetNxPx (st : RedisStore) (k v : String) (ttlMs : Int) :
    RedisStore × Bool :=
  let _ := ttlMs -- expiry is enforced by Redis, not visible to this code
  match redisGet st k with
  | some _ => (st, false)
  | none => (st ++ [(k, v)], true)

/-- RedisLockHandle from src/libs/redis.ts. -/
structure RedisLockHandle where
  key : String
  token : String
deriving DecidableEq, Repr

/-- acquireShortLock from src/libs/redis.ts: SET the lock key (built from
tenant, scope and resource; passed here already assembled) to a fresh
random ownership token with NX and a TTL of at least one second; the
caller gets a handle only when the key was actually set. -/
def acquireShortLock (st : RedisStore) (keyName freshToken : String)
    (ttlMs : Int) : RedisStore × Option RedisLockHandle :=
  let ttl := max 1000 ttlMs
  let res := redisSetNxPx st keyName freshToken ttl
  if res.2 then (res.1, some { key := keyName, token := freshToken })
  else (res.1, none)

/-- releaseShortLock from src/libs/redis.ts: re-read the key and delete it
only when the stored ownership token still equals the caller's; a stale or
foreign token leaves the store untouched and returns false. -/
def releaseShortLock (st : RedisStore) (lock : RedisLockHandle) :
    RedisStore × Bool :=
  let current := redisGet st lock.key
  if current ≠ some lock.token then (st, false)
  else
    let deleted := redisDel st lock.key
    (deleted.1, deleted.2 == 1)

/-! ## Durable idempotency records (src/libs/idempotency.ts) -/

/-- Primary key of auth.idempotency_keys. -/
structure IdemKey where
  tenantId : String
  endpoint : String
  idempotencyKey : String
deriving DecidableEq, Repr

/-- Row of auth.idempotency_keys. -/
structure IdemRow where
  status_code : Int
  response_body : String
  created_at : Int
  expires_at : Int
deriving DecidableEq, Repr

/-- The durable auth.idempotency_keys table. -/
abbrev IdemTable := List (IdemKey × IdemRow)

/-- The fast ephemeral cache written best-effort before the durable store:
key to (status code, body). -/
abbrev IdemCache := List (IdemKey × (Int × String))

/-- Retention window of the durable idempotency insert: 24 hours, in
milliseconds. -/
def HOURS_24_MS : Int := 24 * 60 * 60 * 1000

/-- Lookup in the durable table. -/
def idemLookup (tbl : IdemTable) (k : IdemKey) : Option IdemRow :=
  (tbl.find? (fun e => decide (e.1 = k))).map (·.2)

/-- writeIdempotentResponseCache from src/libs/redis.ts: best-effort SET of
the serialized (status, body) pair under the cache key. -/
def writeIdempotentResponseCache (cache : IdemCache) (k : IdemKey)
    (statusCode : Int) (body : String) : IdemCache :=
  if cache.any (fun e => decide (e.1 = k)) then
    cache.map (fun e => if e.1 = k then (k, (statusCode, body)) else e)
  else
    cache ++ [(k, (statusCode, body))]

/-- The INSERT ... ON CONFLICT (tenant_id, endpoint, idempotency_key)
DO UPDATE statement of writeIdempotentResponse: insert with expiry
now + 24 hours; on conflict overwrite status and body and set expires_at
to GREATEST(existing, new) so the retention window never shrinks. -/
def upsertIdempotencyRow (tbl : IdemTable) (k : IdemKey) (statusCode : Int)
    (body : String) (now : Int) : IdemTable :=
  match idemLookup tbl k with
  | none =>
    tbl ++ [(k, { status_code := statusCode, response_body := body,
                  created_at := now, expires_at := now + HOURS_24_MS })]
  | some old =>
    tbl.map (fun e =>
      if e.1 = k then
        (k, { status_code := statusCode, response_body := body,
              created_at := old.created_at,
              expires_at := max old.expires_at (now + HOURS_24_MS) })
      else e)

/-- writeIdempotentResponse from src/libs/idempotency.ts: best-effort cache
write, then the durable upsert guarded by the ensureIdempotencyTable probe
(hasTable; when the table is missing the durable write is skipped). -/
def writeIdempotentResponse (cache : IdemCache) (hasTable : Bool)
    (tbl : IdemTable) (k : IdemKey) (statusCode : Int) (body : String)
    (now : Int) : IdemCache × IdemTable :=
  let cache1 := writeIdempotentResponseCache cache k statusCode body
  if hasTable = false then (cache1, tbl)
  else (cache1, upsertIdempotencyRow tbl k statusCode body now)

/-- A sequence of writeIdempotentResponse calls against the same key; each
entry carries the table-present flag, the call time, the status code and
the body. -/
def writeIdempotentResponseSeq (st : IdemCache × IdemTable) (k : IdemKey) :
    List (Bool × Int × Int × String) → IdemCache × IdemTable
  | [] => st
  | w :: ws =>
    writeIdempotentResponseSeq
      (writeIdempotentResponse st.1 w.1 st.2 k w.2.2.1 w.2.2.2 w.2.1) k ws

/-! ## Concrete fixtures used by the witness theorems -/

/-- Fixture for the lock witnesses. -/
def lockStoreW : RedisStore := [("lock:k", "tok-1")]

/-- Environment fixture for identity-service witnesses. -/
def envW : IdentityEnv :=
  { jwt := { activeSecret := "active-secret" }
    resolveLoginCandidate := fun _ _ => none
    resolveAuthContextRow := fun _ _ =>
      some { tenant_id := none, role := some "member", plan_code := some "free",
             role_names := some ["member"] }
    verifyPassword := fun _ _ => true }

/-- A stored refresh token that is simultaneously rotated (replaced_by set),
revoked and expired. -/
def rowW : RefreshTokenRow :=
  { id := 0, user_id := "user-1", token_hash := hashOpaqueToken "R0",
    family_id := "00000000-0000-4000-8000-000000000001",
    replaced_by := some 7, revoked_at := some 50, created_at := 0,
    expires_at := 100 }

/-- Store fixture holding rowW. -/
def stW : RefreshStore := { rows := [rowW], nextId := 1 }

/-- A live stored refresh token presented for rotation in the lost-race
witness. -/
def rowAW : RefreshTokenRow :=
  { id := 0, user_id := "user-1", token_hash := hashOpaqueToken "T0",
    family_id := "fam", replaced_by := none, revoked_at := none,
    created_at := 0, expires_at := 1000 }

/-- A second row sharing the id of rowAW, so the conditional rotation update
matches two rows instead of exactly one (the lost-race condition observable
to the WHERE id AND revoked_at IS NULL update). -/
def rowBW : RefreshTokenRow :=
  { id := 0, user_id := "user-1", token_hash := hashOpaqueToken "TB",
    family_id := "fam", replaced_by := none, revoked_at := none,
    created_at := 0, expires_at := 1000 }

/-- Store fixture in which the mark-as-rotated update does not affect
exactly one row. -/
def stDupW : RefreshStore := { rows := [rowAW, rowBW], nextId := 1 }

/-- The auth context resolved by envW. -/
def ctxW : UserAuthContext :=
  { tenantId := none, role := "member", roles := ["member"], plan := "free" }

/-- JWT environment fixture for the claim-schema witness. -/
def c3envW : JwtEnv := { activeSecret := "k3" }

/-- A well-formed global (tenant-less) access-token payload. -/
def c3payloadW : Payload :=
  [(.typ, .str "access"), (.sub, .str "u1"), (.jti, .str "j1"),
   (.iss, .str "auth-service"), (.aud, .str "auth-client"),
   (.exp, .num 2000), (.ver, .num 1)]

/-- A genuine token over c3payloadW signed with the active key. -/
def c3tokW : Jwt :=
  { payload := c3payloadW, sigKey := "k3", sigPayload := c3payloadW }

/-- The payload returned for c3tokW (tenant pair removed, here a no-op). -/
def c3outW : Payload := pdel (pdel c3payloadW .tenant_id) .tid

/-- JWT environment fixture for the tenant round-trip claims. -/
def c4envW : JwtEnv := { activeSecret := "k4" }

/-- A UUID-shaped tenant id containing uppercase hex letters; UUID_RE is
case-insensitive, so signing and verification accept it as-is. -/
def c4tenW : String := "12345678-1234-4123-89AB-123456789ABC"

/-- The token/expiry pair signAccessToken produces for tenant c4tenW. -/
def c4pairW : Jwt × Int :=
  ((signAccessToken c4envW 0 "j4" "u4" (some c4tenW) 900 {}).toOption).getD
    ({ payload := [], sigKey := "", sigPayload := [] }, 0)

/-- The access token issued for the uppercase tenant id. -/
def c4tokW : Jwt := c4pairW.1

/-- The payload verifyAccessToken returns for c4tokW. -/
def c4outW : Payload :=
  pset (pset c4tokW.payload .tenant_id (.str c4tenW)) .tid (.str c4tenW)

/-! ## Helper lemmas: association lists and payload operations -/

theorem pget_nil (k : ClaimKey) : pget [] k = none := rfl

theorem find?_append_of_none {α : Type} (p : α → Bool) (l₁ l₂ : List α)
    (h : ∀ x ∈ l₁, p x = false) : (l₁ ++ l₂).find? p = l₂.find? p := by
  rw [List.find?_append, List.find?_eq_none.mpr, Option.none_or]
  intro x hx
  simp [h x hx]

theorem pget_cons (e : ClaimKey × ClaimVal) (p : Payload) (k : ClaimKey) :
    pget (e :: p) k = if e.1 = k then some e.2 else pget p k := by
  by_cases h : e.1 = k
  · rw [pget, List.find?_cons_of_pos _ (by simp [h])]
    simp [h]
  · rw [pget, List.find?_cons_of_neg _ (by simp [h]), if_neg h]
    rfl

theorem pget_append (p₁ p₂ : Payload) (k : ClaimKey) :
    pget (p₁ ++ p₂) k = (pget p₁ k).or (pget p₂ k) := by
  unfold pget
  rw [List.find?_append]
  cases List.find? (fun e => decide (e.1 = k)) p₁ <;> simp

theorem pget_eq_none_of_forall (p : Payload) (k : ClaimKey)
    (h : ∀ e ∈ p, e.1 ≠ k) : pget p k = none := by
  unfold pget
  rw [List.find?_eq_none.mpr]
  · rfl
  · intro e he
    simp [h e he]

theorem pget_map_set (p : Payload) (k : ClaimKey) (v : ClaimVal)
    (h : p.any (fun e => decide (e.1 = k)) = true) :
    pget (p.map (fun e => if e.1 = k then (k, v) else e)) k = some v := by
  induction p with
  | nil => simp at h
  | cons e es ih =>
    by_cases he : e.1 = k
    · simp [List.map_cons, pget_cons, he]
    · have h2 : es.any (fun e => decide (e.1 = k)) = true := by
        simpa [List.any_cons, he] using h
      simp [List.map_cons, pget_cons, he, ih h2]

theorem pget_map_set_ne (p : Payload) (k : ClaimKey) (v : ClaimVal)
    (k2 : ClaimKey) (hne : k2 ≠ k) :
    pget (p.map (fun e => if e.1 = k then (k, v) else e)) k2 = pget p k2 := by
  induction p with
  | nil => rfl
  | cons e es ih =>
    by_cases he : e.1 = k
    · have hk2 : ¬ k = k2 := fun hh => hne hh.symm
      simp [List.map_cons, pget_cons, he, hk2, ih]
    · simp [List.map_cons, pget_cons, he, ih]

theorem pget_pset_self (p : Payload) (k : ClaimKey) (v : ClaimVal) :
    pget (pset p k v) k = some v := by
  unfold pset
  by_cases h : p.any (fun e => decide (e.1 = k)) = true
  · rw [if_pos h]
    exact pget_map_set p k v h
  · have hnone : pget p k = none :=
      pget_eq_none_of_forall p k
        (fun e he hk => h (List.any_eq_true.mpr ⟨e, he, by simp [hk]⟩))
    rw [if_neg h, pget_append, hnone, Option.none_or, pget_cons]
    simp

theorem pget_pset_of_ne (p : Payload) (k : ClaimKey) (v : ClaimVal)
    (k2 : ClaimKey) (h : k2 ≠ k) : pget (pset p k v) k2 = pget p k2 := by
  unfold pset
  by_cases hb : p.any (fun e => decide (e.1 = k)) = true
  · rw [if_pos hb]
    exact pget_map_set_ne p k v k2 h
  · have hk2 : k ≠ k2 := Ne.symm h
    rw [if_neg hb, pget_append, pget_cons]
    simp [hk2, pget_nil]

theorem pget_pdel_self (p : Payload) (k : ClaimKey) :
    pget (pdel p k) k = none := by
  apply pget_eq_none_of_forall
  intro e he
  have h2 := (List.mem_filter.mp he).2
  simpa using h2

theorem pget_pdel_of_ne (p : Payload) (k k2 : ClaimKey) (h : k2 ≠ k) :
    pget (pdel p k) k2 = pget p k2 := by
  unfold pdel
  simp only [decide_not]
  induction p with
  | nil => rfl
  | cons e es ih =>
    by_cases he : e.1 = k
    · have he2 : ¬ e.1 = k2 := by
        rw [he]
        exact fun hh => h hh.symm
      have hk2 : ¬ k = k2 := fun hh => h hh.symm
      simp [List.filter_cons, he, pget_cons, he2, hk2, ih]
    · simp [List.filter_cons, he, pget_cons, ih]

/-! ## Transaction finalization lemmas and claim C6 -/

theorem finalizeTx_of_finalized (s : TxState) (m : TxMode) (f : Bool)
    (h : s.finalized = true) : finalizeTx s m f = (s, []) := by
  unfold finalizeTx
  rw [if_pos h]

theorem runFinalizeSeq_of_finalized (s : TxState) (cs : List (TxMode × Bool))
    (h : s.finalized = true) : runFinalizeSeq s cs = (s, []) := by
  induction cs with
  | nil => rfl
  | cons c cs ih =>
    simp [runFinalizeSeq, finalizeTx_of_finalized s c.1 c.2 h, ih]

/-- C6: for a request that opened a tenant-scoped transaction (client held,
transaction open, not yet finalized), any nonempty sequence of finalizeTx
invocations from the onResponse/onError hooks performs exactly one
finalization query — COMMIT for the commit mode, ROLLBACK for the rollback
mode, determined by the first invocation — and exactly one client release,
regardless of whether the COMMIT/ROLLBACK query itself fails; every
invocation after the first is a no-op thanks to the finalized flag. -/
theorem tx_finalize_exactly_once (s : TxState) (mode : TxMode) (fail : Bool)
    (retries : List (TxMode × Bool))
    (hfin : s.finalized = false) (hcli : s.hasClient = true)
    (htx : s.inTx = true) :
    runFinalizeSeq s ((mode, fail) :: retries)
      = ({ hasClient := false, inTx := false, finalized := true },
         [txQueryAction mode, TxAction.release]) := by
  obtain ⟨hc, hx, hf⟩ := s
  simp only at hfin hcli htx
  subst hfin
  subst hcli
  subst htx
  have hstep : finalizeTx { hasClient := true, inTx := true, finalized := false } mode fail
      = ({ hasClient := false, inTx := false, finalized := true },
         [txQueryAction mode, TxAction.release]) := by
    unfold finalizeTx
    simp
  simp [runFinalizeSeq, hstep,
        runFinalizeSeq_of_finalized { hasClient := false, inTx := false, finalized := true }
          retries rfl]

/-- C6 witness: a concrete double invocation (commit retried as rollback,
with the rollback query failing) still produces exactly one COMMIT and one
release. -/
theorem tx_finalize_exactly_once_witness :
    runFinalizeSeq { hasClient := true, inTx := true, finalized := false }
        [(TxMode.commit, false), (TxMode.rollback, true)]
      = ({ hasClient := false, inTx := false, finalized := true },
         [txQueryAction TxMode.commit, TxAction.release]) :=
  tx_finalize_exactly_once { hasClient := true, inTx := true, finalized := false }
    TxMode.commit false [(TxMode.rollback, true)] rfl rfl rfl

/-! ## Short-lock lemmas and claim C7 -/

theorem redisGet_cons (e : String × String) (st : RedisStore) (k : String) :
    redisGet (e :: st) k = if e.1 = k then some e.2 else redisGet st k := by
  by_cases h : e.1 = k
  · rw [redisGet, List.find?_cons_of_pos _ (by simp [h])]
    simp [h]
  · rw [redisGet, List.find?_cons_of_neg _ (by simp [h]), if_neg h]
    rfl

theorem redis_countP_key_eq_one (st : RedisStore) (k : String)
    (hnodup : (st.map Prod.fst).Nodup) (h : redisGet st k ≠ none) :
    st.countP (fun e => decide (e.1 = k)) = 1 := by
  induction st with
  | nil => simp [redisGet] at h
  | cons e es ih =>
    rw [List.map_cons, List.nodup_cons] at hnodup
    by_cases he : e.1 = k
    · have hz : es.countP (fun e2 => decide (e2.1 = k)) = 0 := by
        apply List.countP_eq_zero.mpr
        intro a ha
        simp only [decide_eq_true_eq]
        intro hak
        exact hnodup.1 (by rw [he, ← hak]; exact List.mem_map_of_mem Prod.fst ha)
      simp [List.countP_cons, he, hz]
    · have h2 : redisGet es k ≠ none := by
        rw [redisGet_cons, if_neg he] at h
        exact h
      simp [List.countP_cons, he, ih hnodup.2 h2]

theorem redisGet_del_self (st : RedisStore) (k : String) :
    redisGet (redisDel st k).1 k = none := by
  unfold redisGet redisDel
  rw [List.find?_eq_none.mpr]
  · rfl
  · intro x hx
    have h2 := (List.mem_filter.mp hx).2
    simpa using h2

/-- C7: releaseShortLock deletes the lock key exactly when the currently
stored value equals the caller's ownership token (and afterwards the key is
gone); when the stored value differs — e.g. the key expired and was
re-acquired by another caller — it returns false and leaves the store
untouched.  Keys are unique in the Redis keyspace. -/
theorem releaseShortLock_ownership (st : RedisStore) (lock : RedisLockHandle)
    (hnodup : (st.map Prod.fst).Nodup) :
    (redisGet st lock.key = some lock.token →
      releaseShortLock st lock = ((redisDel st lock.key).1, true)
      ∧ redisGet (releaseShortLock st lock).1 lock.key = none)
    ∧ (redisGet st lock.key ≠ some lock.token →
      releaseShortLock st lock = (st, false)) := by
  constructor
  · intro hown
    have hcnt : st.countP (fun e => decide (e.1 = lock.key)) = 1 :=
      redis_countP_key_eq_one st lock.key hnodup (by simp [hown])
    have hrel : releaseShortLock st lock = ((redisDel st lock.key).1, true) := by
      unfold releaseShortLock
      rw [if_neg (by simp [hown])]
      simp [redisDel, hcnt]
    refine ⟨hrel, ?_⟩
    rw [hrel]
    exact redisGet_del_self st lock.key
  · intro hdiff
    unfold releaseShortLock
    rw [if_pos hdiff]

/-- C7 witness: with the matching ownership token the lock is deleted; the
theorem is applied at a concrete single-entry store. -/
theorem releaseShortLock_ownership_witness :
    releaseShortLock lockStoreW { key := "lock:k", token := "tok-1" }
      = ((redisDel lockStoreW "lock:k").1, true) :=
  (((releaseShortLock_ownership lockStoreW { key := "lock:k", token := "tok-1" }
      (by decide)).1) (by decide)).1

/-! ## Idempotency-record lemmas and claim C8 -/

theorem idemLookup_cons (e : IdemKey × IdemRow) (tbl : IdemTable) (k : IdemKey) :
    idemLookup (e :: tbl) k = if e.1 = k then some e.2 else idemLookup tbl k := by
  by_cases h : e.1 = k
  · rw [idemLookup, List.find?_cons_of_pos _ (by simp [h])]
    simp [h]
  · rw [idemLookup, List.find?_cons_of_neg _ (by simp [h]), if_neg h]
    rfl

theorem idemLookup_append_self (tbl : IdemTable) (k : IdemKey) (row : IdemRow)
    (h : idemLookup tbl k = none) :
    idemLookup (tbl ++ [(k, row)]) k = some row := by
  have hf : tbl.find? (fun e => decide (e.1 = k)) = none := by
    cases hc : tbl.find? (fun e => decide (e.1 = k)) with
    | none => rfl
    | some e =>
      unfold idemLookup at h
      rw [hc] at h
      simp at h
  unfold idemLookup
  rw [find?_append_of_none _ _ _ (fun x hx => by
    have h2 := List.find?_eq_none.mp hf x hx
    simpa using h2)]
  rw [List.find?_cons_of_pos _ (by simp)]
  rfl

theorem idemLookup_map_update (tbl : IdemTable) (k : IdemKey) (new : IdemRow)
    (h : idemLookup tbl k ≠ none) :
    idemLookup (tbl.map (fun e => if e.1 = k then (k, new) else e)) k = some new := by
  induction tbl with
  | nil => simp [idemLookup] at h
  | cons e es ih =>
    by_cases he : e.1 = k
    · simp [List.map_cons, he, idemLookup_cons]
    · have h2 : idemLookup es k ≠ none := by
        simpa [idemLookup_cons, he] using h
      simp [List.map_cons, he, idemLookup_cons, ih h2]

theorem idem_seq_monotone (k : IdemKey) (ws : List (Bool × Int × Int × String)) :
    ∀ (st : IdemCache × IdemTable) (r : IdemRow), idemLookup st.2 k = some r →
    ∃ r2, idemLookup (writeIdempotentResponseSeq st k ws).2 k = some r2
      ∧ r.expires_at ≤ r2.expires_at := by
  induction ws with
  | nil =>
    intro st r h
    exact ⟨r, h, le_refl _⟩
  | cons w ws ih =>
    intro st r h
    rcases w with ⟨ht, now, code, body⟩
    show ∃ r2,
      idemLookup (writeIdempotentResponseSeq
        (writeIdempotentResponse st.1 ht st.2 k code body now) k ws).2 k = some r2
      ∧ r.expires_at ≤ r2.expires_at
    cases ht with
    | false =>
      have hst : writeIdempotentResponse st.1 false st.2 k code body now
          = (writeIdempotentResponseCache st.1 k code body, st.2) := by
        unfold writeIdempotentResponse
        simp
      rw [hst]
      exact ih (writeIdempotentResponseCache st.1 k code body, st.2) r h
    | true =>
      have hst : writeIdempotentResponse st.1 true st.2 k code body now
          = (writeIdempotentResponseCache st.1 k code body,
             upsertIdempotencyRow st.2 k code body now) := by
        unfold writeIdempotentResponse
        simp
      rw [hst]
      have hup : idemLookup (upsertIdempotencyRow st.2 k code body now) k
          = some { status_code := code, response_body := body,
                   created_at := r.created_at,
                   expires_at := max r.expires_at (now + HOURS_24_MS) } := by
        unfold upsertIdempotencyRow
        rw [h]
        exact idemLookup_map_update st.2 k _ (by simp [h])
      obtain ⟨r2, h2, hle⟩ := ih (writeIdempotentResponseCache st.1 k code body,
        upsertIdempotencyRow st.2 k code body now) _ hup
      exact ⟨r2, h2, le_trans (le_max_left _ _) hle⟩

/-- C8: the durable idempotency write inserts with a 24-hour expiry; on
conflict for the same (tenant, endpoint, key) it overwrites status and body
but sets expires_at to the greater of the existing and the new expiry, so
the stored expiry of a key never decreases across any sequence of writes. -/
theorem idempotency_write_expiry_monotone (cache : IdemCache) (tbl : IdemTable)
    (k : IdemKey) (status : Int) (body : String) (now : Int) :
    (idemLookup tbl k = none →
      idemLookup (writeIdempotentResponse cache true tbl k status body now).2 k
        = some { status_code := status, response_body := body,
                 created_at := now, expires_at := now + HOURS_24_MS })
    ∧ (∀ r, idemLookup tbl k = some r →
      idemLookup (writeIdempotentResponse cache true tbl k status body now).2 k
        = some { status_code := status, response_body := body,
                 created_at := r.created_at,
                 expires_at := max r.expires_at (now + HOURS_24_MS) }
      ∧ r.expires_at ≤ max r.expires_at (now + HOURS_24_MS))
    ∧ (∀ (ws : List (Bool × Int × Int × String)) (r : IdemRow),
        idemLookup tbl k = some r →
        ∃ r2, idemLookup (writeIdempotentResponseSeq (cache, tbl) k ws).2 k = some r2
          ∧ r.expires_at ≤ r2.expires_at) := by
  have hw : (writeIdempotentResponse cache true tbl k status body now).2
      = upsertIdempotencyRow tbl k status body now := by
    unfold writeIdempotentResponse
    simp
  refine ⟨?_, ?_, ?_⟩
  · intro hnone
    rw [hw]
    unfold upsertIdempotencyRow
    rw [hnone]
    exact idemLookup_append_self tbl k _ hnone
  · intro r hr
    refine ⟨?_, le_max_left _ _⟩
    rw [hw]
    unfold upsertIdempotencyRow
    rw [hr]
    exact idemLookup_map_update tbl k _ (by simp [hr])
  · intro ws r hr
    exact idem_seq_monotone k ws (cache, tbl) r hr

/-! ## Claim C10: reuse detection precedes the revocation/expiry guard -/

/-- C10: whenever the presented refresh token resolves to a stored row whose
replaced_by is set, refreshWithToken fails with the distinguished
RefreshReuseDetectedError and re-runs family-wide revocation, with no
precondition on revoked_at or expires_at — the replaced_by check runs before
the revocation/expiry guard, so a spent token never degrades to the generic
failure even when it is also expired or already revoked. -/
theorem reuse_detection_takes_precedence (env : IdentityEnv) (st : RefreshStore)
    (params : RefreshInput) (newTok newJti : String) (now : Int)
    (r : RefreshTokenRow)
    (hfind : findRefreshTokenByHash st (hashOpaqueToken params.refreshToken) = some r)
    (hrep : r.replaced_by ≠ none) :
    refreshWithToken env st params newTok newJti now
      = ((revokeRefreshFamily st r.family_id now).1,
         .error .refreshReuseDetectedError) := by
  simp only [refreshWithToken]
  rw [hfind]
  simp [hrep]

/-- C10 witness: presenting the token of a row that is rotated and also
expired and revoked (clock 500 is past expires_at 100) still yields reuse
detection plus family revocation. -/
theorem reuse_detection_takes_precedence_witness :
    refreshWithToken envW stW { refreshToken := "R0" } "R9" "j9" 500
      = ((revokeRefreshFamily stW rowW.family_id 500).1,
         .error .refreshReuseDetectedError) :=
  reuse_detection_takes_precedence envW stW { refreshToken := "R0" } "R9" "j9" 500
    rowW (by decide) (by decide)

/-! ## Claim C9: active key first, previous key only as fallback -/

theorem verifyAccessToken_of_active_ok (env : JwtEnv) (now : Int) (tok : Jwt)
    (p : Payload)
    (hp : jwtVerify tok env.activeSecret (verifyOptionsOf env) now = .ok p) :
    verifyAccessToken env now tok = enforceAccessClaims p := by
  simp only [verifyAccessToken]
  rw [hp]

theorem verifyAccessToken_of_active_error_no_prev (env : JwtEnv) (now : Int)
    (tok : Jwt) (e : String)
    (he : jwtVerify tok env.activeSecret (verifyOptionsOf env) now = .error e)
    (hnone : env.previousSecret = none) :
    verifyAccessToken env now tok = .error e := by
  simp only [verifyAccessToken]
  rw [he, hnone]

theorem verifyAccessToken_of_active_error_prev (env : JwtEnv) (now : Int)
    (tok : Jwt) (e : String) (prevKey : String)
    (he : jwtVerify tok env.activeSecret (verifyOptionsOf env) now = .error e)
    (hsome : env.previousSecret = some prevKey) :
    verifyAccessToken env now tok
      = (match jwtVerify tok prevKey (verifyOptionsOf env) now with
         | .ok p => enforceAccessClaims p
         | .error e2 => .error e2) := by
  simp only [verifyAccessToken]
  rw [he, hsome]

/-- C9: verifyAccessToken checks the signature with the active key first;
its result does not depend on the configured previous key when active-key
verification succeeds (the previous key is never consulted); when active
verification fails and no previous key is configured the active error
propagates unchanged; and the previous key is attempted exactly when active
verification fails and a previous key is configured. -/
theorem verify_active_key_first (env : JwtEnv) (now : Int) (tok : Jwt) :
    (∀ p, jwtVerify tok env.activeSecret (verifyOptionsOf env) now = .ok p →
      ∀ prev, verifyAccessToken { env with previousSecret := prev } now tok
        = enforceAccessClaims p)
    ∧ (∀ e, jwtVerify tok env.activeSecret (verifyOptionsOf env) now = .error e →
      env.previousSecret = none → verifyAccessToken env now tok = .error e)
    ∧ (∀ e prevKey, jwtVerify tok env.activeSecret (verifyOptionsOf env) now = .error e →
      env.previousSecret = some prevKey →
      verifyAccessToken env now tok
        = (match jwtVerify tok prevKey (verifyOptionsOf env) now with
           | .ok p => enforceAccessClaims p
           | .error e2 => .error e2)) := by
  refine ⟨?_, ?_, ?_⟩
  · intro p hp prev
    exact verifyAccessToken_of_active_ok { env with previousSecret := prev } now tok p hp
  · intro e he hnone
    exact verifyAccessToken_of_active_error_no_prev env now tok e he hnone
  · intro e prevKey he hsome
    exact verifyAccessToken_of_active_error_prev env now tok e prevKey he hsome

/-! ## Claim C5: login runs the verifier exactly once and fails generically -/

/-- C5: every login attempt invokes the credential verifier exactly once —
against the stored hash when a candidate row exists and against the fixed
dummy argon2id hash when none does; the generic LoginFailedError is thrown
exactly in the four enumerated failure cases (unknown user, inactive user,
unverified user, wrong password); and success requires an existing, active,
verified candidate for which the verifier returned true. -/
theorem login_verifier_once_and_generic_failure (env : IdentityEnv)
    (db : AuthDb) (params : LoginInput) (sessionId refreshToken newJti : String)
    (now : Int) :
    (loginWithEmailPassword env db params sessionId refreshToken newJti now).verifierCalls
      = [(match findLoginCandidateByEmail env params.email params.requestedTenantId with
          | some u => u.password_hash
          | none => DUMMY_PASSWORD_HASH, params.password)]
    ∧ ((loginWithEmailPassword env db params sessionId refreshToken newJti now).result
        = .error .loginFailedError ↔
       (findLoginCandidateByEmail env params.email params.requestedTenantId = none
        ∨ ∃ u, findLoginCandidateByEmail env params.email params.requestedTenantId = some u
          ∧ (u.is_active = false ∨ u.verified_at = none
             ∨ env.verifyPassword u.password_hash params.password = false)))
    ∧ (∀ res, (loginWithEmailPassword env db params sessionId refreshToken newJti now).result
        = .ok res →
       ∃ u, findLoginCandidateByEmail env params.email params.requestedTenantId = some u
         ∧ u.is_active = true ∧ u.verified_at ≠ none
         ∧ env.verifyPassword u.password_hash params.password = true) := by
  cases hu : findLoginCandidateByEmail env params.email params.requestedTenantId with
  | none =>
    have hres : (loginWithEmailPassword env db params sessionId refreshToken newJti now).result
        = .error .loginFailedError := by
      simp only [loginWithEmailPassword, hu]
    have hcalls : (loginWithEmailPassword env db params sessionId refreshToken newJti now).verifierCalls
        = [(DUMMY_PASSWORD_HASH, params.password)] := by
      simp only [loginWithEmailPassword, hu]
    refine ⟨?_, ?_, ?_⟩
    · exact hcalls
    · rw [hres]
      simp
    · intro res h
      rw [hres] at h
      simp at h
  | some u =>
    have hcalls : (loginWithEmailPassword env db params sessionId refreshToken newJti now).verifierCalls
        = [(u.password_hash, params.password)] := by
      simp only [loginWithEmailPassword, hu]
      split
      · rfl
      · split
        · rfl
        · split
          · rfl
          · rfl
    by_cases hguard : u.is_active = false ∨ u.verified_at = none
        ∨ env.verifyPassword u.password_hash params.password = false
    · have hres : (loginWithEmailPassword env db params sessionId refreshToken newJti now).result
          = .error .loginFailedError := by
        simp only [loginWithEmailPassword, hu, if_pos hguard]
      refine ⟨?_, ?_, ?_⟩
      · exact hcalls
      · rw [hres]
        constructor
        · intro _
          exact Or.inr ⟨u, rfl, hguard⟩
        · intro _
          rfl
      · intro res h
        rw [hres] at h
        simp at h
    · have hguard2 : ¬ (u.is_active = false ∨ u.verified_at = none
          ∨ env.verifyPassword u.password_hash params.password = false) := hguard
      have ha2 : u.is_active = true := by
        cases hb : u.is_active
        · exact absurd (Or.inl hb) hguard
        · rfl
      have hv2 : u.verified_at ≠ none :=
        fun h => hguard (Or.inr (Or.inl h))
      have hok2 : env.verifyPassword u.password_hash params.password = true := by
        cases hb : env.verifyPassword u.password_hash params.password
        · exact absurd (Or.inr (Or.inr hb)) hguard
        · rfl
      have hiff : ∀ r : Except IdentityError LoginResult,
          r ≠ .error .loginFailedError →
          (r = .error .loginFailedError ↔
            (some u = (none : Option LoginCandidateRow)
             ∨ ∃ u2, (some u : Option LoginCandidateRow) = some u2
               ∧ (u2.is_active = false ∨ u2.verified_at = none
                  ∨ env.verifyPassword u2.password_hash params.password = false))) := by
        intro r hr
        constructor
        · intro h
          exact absurd h hr
        · rintro (h | ⟨u2, hu2, h2⟩)
          · exact absurd h (by simp)
          · have : u = u2 := Option.some.inj hu2
            subst this
            exact absurd h2 hguard2
      refine ⟨?_, ?_, ?_⟩
      · exact hcalls
      · cases hctx : resolveUserAuthContext env.resolveAuthContextRow u.id
            params.requestedTenantId with
        | error e =>
          have hres : (loginWithEmailPassword env db params sessionId refreshToken newJti now).result
              = .error .resolveUserAuthContextFailed := by
            simp only [loginWithEmailPassword, hu, if_neg hguard, hctx]
          rw [hres]
          exact hiff _ (by simp)
        | ok ctx =>
          cases hsig : signAccessToken env.jwt (now / 1000) newJti u.id ctx.tenantId
              ACCESS_TTL_SEC
              { sid := some sessionId, ver := some 1, role := some ctx.role,
                roles := some ctx.roles,
                plan := some (if ctx.plan = "" then "free" else ctx.plan) } with
          | error e =>
            have hres : (loginWithEmailPassword env db params sessionId refreshToken newJti now).result
                = .error (.jwtError e) := by
              simp only [loginWithEmailPassword, hu, if_neg hguard, hctx, hsig]
            rw [hres]
            exact hiff _ (by simp)
          | ok tokExp =>
            have hres : ∃ res, (loginWithEmailPassword env db params sessionId refreshToken newJti now).result
                = .ok res := by
              simp only [loginWithEmailPassword, hu, if_neg hguard, hctx, hsig]
              exact ⟨_, rfl⟩
            obtain ⟨res, hres⟩ := hres
            rw [hres]
            exact hiff _ (by simp)
      · intro res h
        exact ⟨u, rfl, ha2, hv2, hok2⟩

/-! ## Rotation-engine lemmas -/

theorem markFn_token_hash (tokenId replacedById : Nat) (now : Int)
    (r : RefreshTokenRow) :
    (if r.id = tokenId ∧ r.revoked_at = none
     then { r with revoked_at := some now, replaced_by := some replacedById }
     else r).token_hash = r.token_hash := by
  split <;> rfl

theorem markFn_id (tokenId replacedById : Nat) (now : Int)
    (r : RefreshTokenRow) :
    (if r.id = tokenId ∧ r.revoked_at = none
     then { r with revoked_at := some now, replaced_by := some replacedById }
     else r).id = r.id := by
  split <;> rfl

theorem revokeFn_token_hash (familyId : String) (now : Int)
    (r : RefreshTokenRow) :
    (if r.family_id = familyId ∧ r.revoked_at = none
     then { r with revoked_at := some now }
     else r).token_hash = r.token_hash := by
  split <;> rfl

theorem revokeRefreshFamily_mem_revokes (st : RefreshStore) (familyId : String)
    (now : Int) :
    ∀ r ∈ st.rows, r.family_id = familyId → r.revoked_at = none →
      { r with revoked_at := some now } ∈ (revokeRefreshFamily st familyId now).1.rows := by
  intro r hr h1 h2
  simp only [revokeRefreshFamily]
  refine List.mem_map.mpr ⟨r, hr, ?_⟩
  rw [if_pos ⟨h1, h2⟩]

theorem revokeRefreshFamily_mem_untouched_revoked (st : RefreshStore)
    (familyId : String) (now : Int) :
    ∀ r ∈ st.rows, r.revoked_at ≠ none →
      r ∈ (revokeRefreshFamily st familyId now).1.rows := by
  intro r hr h
  simp only [revokeRefreshFamily]
  refine List.mem_map.mpr ⟨r, hr, ?_⟩
  rw [if_neg (fun hcon => h hcon.2)]

theorem revokeRefreshFamily_mem_untouched_other (st : RefreshStore)
    (familyId : String) (now : Int) :
    ∀ r ∈ st.rows, r.family_id ≠ familyId →
      r ∈ (revokeRefreshFamily st familyId now).1.rows := by
  intro r hr h
  simp only [revokeRefreshFamily]
  refine List.mem_map.mpr ⟨r, hr, ?_⟩
  rw [if_neg (fun hcon => h hcon.1)]

/-- After any rotation attempt, a successor row (one bearing the fresh
token's hash) exists in the store only together with a predecessor row
whose replaced_by points at it: no orphaned successor survives any path
of refreshWithToken. -/
theorem refresh_no_orphan (env : IdentityEnv) (st : RefreshStore)
    (params : RefreshInput) (newTok newJti : String) (now : Int)
    (hfresh : ∀ x ∈ st.rows, x.token_hash ≠ hashOpaqueToken newTok) :
    ∀ x ∈ (refreshWithToken env st params newTok newJti now).1.rows,
      x.token_hash = hashOpaqueToken newTok →
      ∃ pred ∈ (refreshWithToken env st params newTok newJti now).1.rows,
        pred.replaced_by = some x.id := by
  cases hfind : findRefreshTokenByHash st (hashOpaqueToken params.refreshToken) with
  | none =>
    have hout : (refreshWithToken env st params newTok newJti now).1 = st := by
      simp only [refreshWithToken, hfind]
    rw [hout]
    intro x hx hhash
    exact absurd hhash (hfresh x hx)
  | some stored =>
    by_cases hrep : stored.replaced_by ≠ none
    · have hout : (refreshWithToken env st params newTok newJti now).1
          = (revokeRefreshFamily st stored.family_id now).1 := by
        simp only [refreshWithToken, hfind]
        rw [if_pos hrep]
      rw [hout]
      intro x hx hhash
      simp only [revokeRefreshFamily] at hx
      rcases List.mem_map.mp hx with ⟨y, hy, rfl⟩
      rw [revokeFn_token_hash] at hhash
      exact absurd hhash (hfresh y hy)
    · by_cases hguard : stored.revoked_at ≠ none ∨ stored.expires_at ≤ now
      · have hout : (refreshWithToken env st params newTok newJti now).1 = st := by
          simp only [refreshWithToken, hfind]
          rw [if_neg hrep, if_pos hguard]
        rw [hout]
        intro x hx hhash
        exact absurd hhash (hfresh x hx)
      · cases hctx : resolveUserAuthContext env.resolveAuthContextRow stored.user_id
            params.requestedTenantId with
        | error e =>
          have hout : (refreshWithToken env st params newTok newJti now).1 = st := by
            simp only [refreshWithToken, hfind]
            rw [if_neg hrep, if_neg hguard]
            simp only [hctx]
          rw [hout]
          intro x hx hhash
          exact absurd hhash (hfresh x hx)
        | ok ctx =>
          by_cases hm : (markRefreshTokenRotated
              (createRefreshTokenRecord st stored.user_id (hashOpaqueToken newTok)
                REFRESH_TTL_SEC stored.family_id now).1
              stored.id
              (createRefreshTokenRecord st stored.user_id (hashOpaqueToken newTok)
                REFRESH_TTL_SEC stored.family_id now).2.id now).2 = false
          · have hout : (refreshWithToken env st params newTok newJti now).1
                = deleteRefreshTokenById
                    (markRefreshTokenRotated
                      (createRefreshTokenRecord st stored.user_id
                        (hashOpaqueToken newTok) REFRESH_TTL_SEC
                        stored.family_id now).1
                      stored.id
                      (createRefreshTokenRecord st stored.user_id
                        (hashOpaqueToken newTok) REFRESH_TTL_SEC
                        stored.family_id now).2.id now).1
                    (createRefreshTokenRecord st stored.user_id
                      (hashOpaqueToken newTok) REFRESH_TTL_SEC
                      stored.family_id now).2.id := by
              simp only [refreshWithToken, hfind]
              rw [if_neg hrep, if_neg hguard]
              simp only [hctx]
              rw [if_pos hm]
            rw [hout]
            intro x hx hhash
            simp only [deleteRefreshTokenById, markRefreshTokenRotated,
              createRefreshTokenRecord] at hx
            rcases List.mem_filter.mp hx with ⟨hmem, hid⟩
            rcases List.mem_map.mp hmem with ⟨y, hy, rfl⟩
            rcases List.mem_append.mp hy with hy1 | hy2
            · rw [markFn_token_hash] at hhash
              exact absurd hhash (hfresh y hy1)
            · have hyeq : y =
                  { id := st.nextId, user_id := stored.user_id,
                    token_hash := hashOpaqueToken newTok, family_id := stored.family_id,
                    replaced_by := none, revoked_at := none, created_at := now,
                    expires_at := now + REFRESH_TTL_SEC * 1000 } := by
                simpa using hy2
              rw [markFn_id] at hid
              simp only [decide_eq_true_eq] at hid
              exact absurd (by rw [hyeq]) hid
          · have hout : (refreshWithToken env st params newTok newJti now).1
                = (markRefreshTokenRotated
                    (createRefreshTokenRecord st stored.user_id
                      (hashOpaqueToken newTok) REFRESH_TTL_SEC
                      stored.family_id now).1
                    stored.id
                    (createRefreshTokenRecord st stored.user_id
                      (hashOpaqueToken newTok) REFRESH_TTL_SEC
                      stored.family_id now).2.id now).1 := by
              simp only [refreshWithToken, hfind]
              rw [if_neg hrep, if_neg hguard]
              simp only [hctx]
              rw [if_neg hm]
              split
              · rfl
              · rfl
            have hcnt : (createRefreshTokenRecord st stored.user_id
                (hashOpaqueToken newTok) REFRESH_TTL_SEC stored.family_id now).1.rows.countP
                  (fun r2 => decide (r2.id = stored.id ∧ r2.revoked_at = none)) = 1 := by
              have hm2 : (markRefreshTokenRotated
                  (createRefreshTokenRecord st stored.user_id (hashOpaqueToken newTok)
                    REFRESH_TTL_SEC stored.family_id now).1
                  stored.id
                  (createRefreshTokenRecord st stored.user_id (hashOpaqueToken newTok)
                    REFRESH_TTL_SEC stored.family_id now).2.id now).2 = true := by
                cases hb : (markRefreshTokenRotated
                    (createRefreshTokenRecord st stored.user_id (hashOpaqueToken newTok)
                      REFRESH_TTL_SEC stored.family_id now).1
                    stored.id
                    (createRefreshTokenRecord st stored.user_id (hashOpaqueToken newTok)
                      REFRESH_TTL_SEC stored.family_id now).2.id now).2
                · exact absurd hb hm
                · rfl
              simpa [markRefreshTokenRotated] using hm2
            rw [hout]
            intro x hx hhash
            simp only [markRefreshTokenRotated] at hx
            rcases List.mem_map.mp hx with ⟨y, hy, rfl⟩
            have hpos : 0 < (createRefreshTokenRecord st stored.user_id
                (hashOpaqueToken newTok) REFRESH_TTL_SEC stored.family_id now).1.rows.countP
                  (fun r2 => decide (r2.id = stored.id ∧ r2.revoked_at = none)) := by
              rw [hcnt]
              exact Nat.zero_lt_one
            obtain ⟨y0, hy0, hp0⟩ := List.countP_pos_iff.mp hpos
            simp only [decide_eq_true_eq] at hp0
            refine ⟨(if y0.id = stored.id ∧ y0.revoked_at = none
                then
                  { y0 with
                    revoked_at := some now,
                    replaced_by := some (createRefreshTokenRecord st stored.user_id
                      (hashOpaqueToken newTok) REFRESH_TTL_SEC
                      stored.family_id now).2.id }
                else y0), ?_, ?_⟩
            · simp only [markRefreshTokenRotated]
              exact List.mem_map.mpr ⟨y0, hy0, rfl⟩
            · rw [if_pos hp0, markFn_id]
              simp only [createRefreshTokenRecord] at hy
              rcases List.mem_append.mp hy with hy1 | hy2
              · rw [markFn_token_hash] at hhash
                exact absurd hhash (hfresh y hy1)
              · have hyeq : y =
                    { id := st.nextId, user_id := stored.user_id,
                      token_hash := hashOpaqueToken newTok, family_id := stored.family_id,
                      replaced_by := none, revoked_at := none, created_at := now,
                      expires_at := now + REFRESH_TTL_SEC * 1000 } := by
                  simpa using hy2
                rw [hyeq]
                simp [createRefreshTokenRecord]

/-- C2: when the conditional mark-as-rotated update (guarded by
revoked_at IS NULL) affects zero rows, refreshWithToken deletes the freshly
inserted successor row and fails with the generic RefreshFailedError, and
the resulting store contains no row bearing the successor token's hash;
moreover, after any rotation attempt whatsoever, a successor row exists
only together with a predecessor marked as replaced by it. -/
theorem rotation_lost_race_no_orphan (env : IdentityEnv) (st : RefreshStore)
    (params : RefreshInput) (newTok newJti : String) (now : Int)
    (r : RefreshTokenRow) (ctx : UserAuthContext)
    (hfresh : ∀ x ∈ st.rows, x.token_hash ≠ hashOpaqueToken newTok)
    (hfind : findRefreshTokenByHash st (hashOpaqueToken params.refreshToken) = some r)
    (hrep : r.replaced_by = none)
    (hrev : r.revoked_at = none)
    (hexp : now < r.expires_at)
    (hctx : resolveUserAuthContext env.resolveAuthContextRow r.user_id
      params.requestedTenantId = .ok ctx)
    (hmark : (markRefreshTokenRotated
        (createRefreshTokenRecord st r.user_id (hashOpaqueToken newTok)
          REFRESH_TTL_SEC r.family_id now).1
        r.id
        (createRefreshTokenRecord st r.user_id (hashOpaqueToken newTok)
          REFRESH_TTL_SEC r.family_id now).2.id now).2 = false) :
    refreshWithToken env st params newTok newJti now
      = (deleteRefreshTokenById
          (markRefreshTokenRotated
            (createRefreshTokenRecord st r.user_id (hashOpaqueToken newTok)
              REFRESH_TTL_SEC r.family_id now).1
            r.id
            (createRefreshTokenRecord st r.user_id (hashOpaqueToken newTok)
              REFRESH_TTL_SEC r.family_id now).2.id now).1
          (createRefreshTokenRecord st r.user_id (hashOpaqueToken newTok)
            REFRESH_TTL_SEC r.family_id now).2.id,
         .error .refreshFailedError)
    ∧ (∀ x ∈ (refreshWithToken env st params newTok newJti now).1.rows,
        x.token_hash ≠ hashOpaqueToken newTok)
    ∧ (∀ (st2 : RefreshStore) (params2 : RefreshInput) (newTok2 newJti2 : String)
        (now2 : Int),
        (∀ x ∈ st2.rows, x.token_hash ≠ hashOpaqueToken newTok2) →
        ∀ x ∈ (refreshWithToken env st2 params2 newTok2 newJti2 now2).1.rows,
          x.token_hash = hashOpaqueToken newTok2 →
          ∃ pred ∈ (refreshWithToken env st2 params2 newTok2 newJti2 now2).1.rows,
            pred.replaced_by = some x.id) := by
  have heq : refreshWithToken env st params newTok newJti now
      = (deleteRefreshTokenById
          (markRefreshTokenRotated
            (createRefreshTokenRecord st r.user_id (hashOpaqueToken newTok)
              REFRESH_TTL_SEC r.family_id now).1
            r.id
            (createRefreshTokenRecord st r.user_id (hashOpaqueToken newTok)
              REFRESH_TTL_SEC r.family_id now).2.id now).1
          (createRefreshTokenRecord st r.user_id (hashOpaqueToken newTok)
            REFRESH_TTL_SEC r.family_id now).2.id,
         .error .refreshFailedError) := by
    simp only [refreshWithToken, hfind]
    rw [if_neg (by simp [hrep])]
    rw [if_neg (by simp [hrev]; omega)]
    simp only [hctx]
    rw [if_pos hmark]
  refine ⟨heq, ?_, ?_⟩
  · intro x hx
    rw [heq] at hx
    simp only [deleteRefreshTokenById, markRefreshTokenRotated,
      createRefreshTokenRecord] at hx
    rcases List.mem_filter.mp hx with ⟨hmem, hid⟩
    rcases List.mem_map.mp hmem with ⟨y, hy, rfl⟩
    rcases List.mem_append.mp hy with hy1 | hy2
    · rw [markFn_token_hash]
      exact hfresh y hy1
    · have hyeq : y =
          { id := st.nextId, user_id := r.user_id,
            token_hash := hashOpaqueToken newTok, family_id := r.family_id,
            replaced_by := none, revoked_at := none, created_at := now,
            expires_at := now + REFRESH_TTL_SEC * 1000 } := by
        simpa using hy2
      rw [markFn_id] at hid
      simp only [decide_eq_true_eq] at hid
      exact absurd (by rw [hyeq]) hid
  · intro st2 params2 newTok2 newJti2 now2 hfresh2
    exact refresh_no_orphan env st2 params2 newTok2 newJti2 now2 hfresh2

/-- C2 witness: on a store where the conditional update would match two
rows (duplicate id), the rotation attempt deletes the freshly created
successor and fails generically. -/
theorem rotation_lost_race_no_orphan_witness :
    refreshWithToken envW stDupW { refreshToken := "T0" } "R1" "j1" 5
      = (deleteRefreshTokenById
          (markRefreshTokenRotated
            (createRefreshTokenRecord stDupW rowAW.user_id (hashOpaqueToken "R1")
              REFRESH_TTL_SEC rowAW.family_id 5).1
            rowAW.id
            (createRefreshTokenRecord stDupW rowAW.user_id (hashOpaqueToken "R1")
              REFRESH_TTL_SEC rowAW.family_id 5).2.id 5).1
          (createRefreshTokenRecord stDupW rowAW.user_id (hashOpaqueToken "R1")
            REFRESH_TTL_SEC rowAW.family_id 5).2.id,
         .error .refreshFailedError) :=
  (rotation_lost_race_no_orphan envW stDupW { refreshToken := "T0" } "R1" "j1" 5
    rowAW ctxW (by decide) (by decide) rfl rfl (by decide) rfl (by decide)).1

/-! ## Rotation success path (claim C1) -/

theorem uuidGuardFails_eq_false (o : Option String)
    (h : ∀ t, o = some t → t ≠ "" → isUuid t = true) :
    uuidGuardFails (presentNonEmpty o) = false := by
  rcases o with _ | t
  · rfl
  · by_cases ht : t = ""
    · simp [presentNonEmpty, uuidGuardFails, ht]
    · simp [presentNonEmpty, uuidGuardFails, ht, h t rfl ht]

theorem signAccessToken_isOk (env : JwtEnv) (now : Int) (jti sub : String)
    (tenantId : Option String) (ttlSec : Int) (extra : AccessTokenExtraClaims)
    (hsub : sub ≠ "")
    (hten : ∀ t, tenantId = some t → t ≠ "" → isUuid t = true)
    (hsid : ∀ s, extra.sid = some s → s ≠ "" → isUuid s = true) :
    ∃ te, signAccessToken env now jti sub tenantId ttlSec extra = .ok te := by
  simp only [signAccessToken]
  rw [if_neg hsub]
  rw [if_neg (by simp [uuidGuardFails_eq_false tenantId hten])]
  rw [if_neg (by simp [uuidGuardFails_eq_false extra.sid hsid])]
  exact ⟨_, rfl⟩

/-- The successful rotation path of refreshWithToken, characterized: with a
live presented token, a resolvable auth context, the conditional update
matching exactly one row, and access-token signing succeeding, the result
is the marked store and the new refresh token. -/
theorem refresh_rotate_success (env : IdentityEnv) (st : RefreshStore)
    (params : RefreshInput) (newTok newJti : String) (now : Int)
    (r : RefreshTokenRow) (ctx : UserAuthContext) (te : Jwt × Int)
    (hfind : findRefreshTokenByHash st (hashOpaqueToken params.refreshToken) = some r)
    (hrep : r.replaced_by = none)
    (hrev : r.revoked_at = none)
    (hexp : now < r.expires_at)
    (hctx : resolveUserAuthContext env.resolveAuthContextRow r.user_id
      params.requestedTenantId = .ok ctx)
    (hcnt : (createRefreshTokenRecord st r.user_id (hashOpaqueToken newTok)
        REFRESH_TTL_SEC r.family_id now).1.rows.countP
          (fun r2 => decide (r2.id = r.id ∧ r2.revoked_at = none)) = 1)
    (hsig : signAccessToken env.jwt (now / 1000) newJti r.user_id ctx.tenantId
        ACCESS_TTL_SEC
        { sid := some r.family_id, ver := some 1,
          role := some (if ctx.role ≠ "" then ctx.role
            else if (if ctx.roles ≠ [] then ctx.roles else ["member"]).headD "" ≠ ""
              then (if ctx.roles ≠ [] then ctx.roles else ["member"]).headD ""
              else "member"),
          roles := some (if ctx.roles ≠ [] then ctx.roles else ["member"]),
          plan := some (if ctx.plan = "" then "free" else ctx.plan) } = .ok te) :
    refreshWithToken env st params newTok newJti now
      = ((markRefreshTokenRotated
            (createRefreshTokenRecord st r.user_id (hashOpaqueToken newTok)
              REFRESH_TTL_SEC r.family_id now).1
            r.id
            (createRefreshTokenRecord st r.user_id (hashOpaqueToken newTok)
              REFRESH_TTL_SEC r.family_id now).2.id now).1,
         .ok { accessToken := te.1, accessTokenExpiresAt := te.2,
               refreshToken := newTok,
               refreshTokenExpiresAt := now / 1000 + REFRESH_TTL_SEC }) := by
  simp only [refreshWithToken, hfind]
  rw [if_neg (by simp [hrep])]
  rw [if_neg (by simp [hrev]; omega)]
  simp only [hctx]
  rw [if_neg (by
    simp only [markRefreshTokenRotated]
    rw [hcnt]
    simp)]
  simp only [hsig]

theorem refresh_reuse_eq (env : IdentityEnv) (st : RefreshStore)
    (params : RefreshInput) (newTok newJti : String) (now : Int)
    (r : RefreshTokenRow)
    (hfind : findRefreshTokenByHash st (hashOpaqueToken params.refreshToken) = some r)
    (hrep : r.replaced_by ≠ none) :
    refreshWithToken env st params newTok newJti now
      = ((revokeRefreshFamily st r.family_id now).1,
         .error .refreshReuseDetectedError) := by
  simp only [refreshWithToken, hfind]
  rw [if_pos hrep]

theorem refresh_stale_eq (env : IdentityEnv) (st : RefreshStore)
    (params : RefreshInput) (newTok newJti : String) (now : Int)
    (r : RefreshTokenRow)
    (hfind : findRefreshTokenByHash st (hashOpaqueToken params.refreshToken) = some r)
    (hrep : r.replaced_by = none)
    (hguard : r.revoked_at ≠ none ∨ r.expires_at ≤ now) :
    refreshWithToken env st params newTok newJti now
      = (st, .error .refreshFailedError) := by
  simp only [refreshWithToken, hfind]
  rw [if_neg (by simp [hrep]), if_pos hguard]

/-- C1: refresh rotation is single-use.  Starting from any well-formed
store into which a fresh refresh token R0 is issued: rotating with R0 once
succeeds and returns the new token R1; presenting R0 again afterwards
fails with the distinguished reuse error and revokes every still-unrevoked
token of R0's family (rows already revoked, and rows of other families,
are untouched); and a subsequent rotation with R1 then fails as well. -/
theorem refresh_rotation_single_use
    (env : IdentityEnv) (st0 : RefreshStore) (u fam R0 R1 R2 R3 j1 j2 j3 : String)
    (req : Option String) (ctx : UserAuthContext) (tIss now1 now2 now3 : Int)
    (hWF : ∀ r ∈ st0.rows, r.id < st0.nextId)
    (hF0 : ∀ r ∈ st0.rows, r.token_hash ≠ hashOpaqueToken R0)
    (hF1 : ∀ r ∈ st0.rows, r.token_hash ≠ hashOpaqueToken R1)
    (hNe : R1 ≠ R0)
    (hExp : now1 < tIss + REFRESH_TTL_SEC * 1000)
    (hCtx : resolveUserAuthContext env.resolveAuthContextRow u req = .ok ctx)
    (hu : u ≠ "")
    (hfam : isUuid fam = true)
    (hten : ∀ t, ctx.tenantId = some t → t ≠ "" → isUuid t = true) :
    ∃ st2 res st3,
      refreshWithToken env
          (createRefreshTokenRecord st0 u (hashOpaqueToken R0) REFRESH_TTL_SEC fam tIss).1
          { refreshToken := R0, requestedTenantId := req } R1 j1 now1
        = (st2, .ok res)
      ∧ res.refreshToken = R1
      ∧ refreshWithToken env st2 { refreshToken := R0, requestedTenantId := req } R2 j2 now2
          = (st3, .error .refreshReuseDetectedError)
      ∧ st3 = (revokeRefreshFamily st2 fam now2).1
      ∧ (∀ r ∈ st2.rows, r.family_id = fam → r.revoked_at = none →
          { r with revoked_at := some now2 } ∈ st3.rows)
      ∧ (∀ r ∈ st2.rows, r.revoked_at ≠ none → r ∈ st3.rows)
      ∧ (∀ r ∈ st2.rows, r.family_id ≠ fam → r ∈ st3.rows)
      ∧ refreshWithToken env st3 { refreshToken := R1, requestedTenantId := req } R3 j3 now3
          = (st3, .error .refreshFailedError) := by
  obtain ⟨te, hsig⟩ := signAccessToken_isOk env.jwt (now1 / 1000) j1 u ctx.tenantId
    ACCESS_TTL_SEC
    { sid := some fam, ver := some 1,
      role := some (if ctx.role ≠ "" then ctx.role
        else if (if ctx.roles ≠ [] then ctx.roles else ["member"]).headD "" ≠ ""
          then (if ctx.roles ≠ [] then ctx.roles else ["member"]).headD ""
          else "member"),
      roles := some (if ctx.roles ≠ [] then ctx.roles else ["member"]),
      plan := some (if ctx.plan = "" then "free" else ctx.plan) }
    hu hten (by
      intro s hs hne
      injection hs with hs2
      rw [← hs2]
      exact hfam)
  have hfind1 : findRefreshTokenByHash
      (createRefreshTokenRecord st0 u (hashOpaqueToken R0) REFRESH_TTL_SEC fam tIss).1
      (hashOpaqueToken R0)
      = some { id := st0.nextId, user_id := u, token_hash := hashOpaqueToken R0,
               family_id := fam, replaced_by := none, revoked_at := none,
               created_at := tIss, expires_at := tIss + REFRESH_TTL_SEC * 1000 } := by
    simp only [findRefreshTokenByHash, createRefreshTokenRecord]
    rw [find?_append_of_none _ _ _ (fun x hx => by simp [hF0 x hx])]
    rw [List.find?_cons_of_pos _ (by simp)]
  have hcnt1 : ((createRefreshTokenRecord
        (createRefreshTokenRecord st0 u (hashOpaqueToken R0) REFRESH_TTL_SEC fam tIss).1
        u (hashOpaqueToken R1) REFRESH_TTL_SEC fam now1).1.rows.countP
        (fun r2 => decide (r2.id = st0.nextId ∧ r2.revoked_at = none))) = 1 := by
    simp only [createRefreshTokenRecord]
    rw [List.countP_append, List.countP_append]
    have hz : st0.rows.countP
        (fun r2 => decide (r2.id = st0.nextId ∧ r2.revoked_at = none)) = 0 :=
      List.countP_eq_zero.mpr (fun a ha => by
        simp only [decide_eq_true_eq]
        exact fun hcon => (Nat.ne_of_lt (hWF a ha)) hcon.1)
    rw [hz]
    simp [List.countP_cons]
  have hstep1 := refresh_rotate_success env
    (createRefreshTokenRecord st0 u (hashOpaqueToken R0) REFRESH_TTL_SEC fam tIss).1
    { refreshToken := R0, requestedTenantId := req } R1 j1 now1
    { id := st0.nextId, user_id := u, token_hash := hashOpaqueToken R0,
      family_id := fam, replaced_by := none, revoked_at := none,
      created_at := tIss, expires_at := tIss + REFRESH_TTL_SEC * 1000 }
    ctx te hfind1 rfl rfl hExp hCtx hcnt1 hsig
  have hfind2 : findRefreshTokenByHash
      (markRefreshTokenRotated
      (createRefreshTokenRecord
        (createRefreshTokenRecord st0 u (hashOpaqueToken R0) REFRESH_TTL_SEC fam tIss).1
        u (hashOpaqueToken R1) REFRESH_TTL_SEC fam now1).1
      st0.nextId
      (createRefreshTokenRecord
        (createRefreshTokenRecord st0 u (hashOpaqueToken R0) REFRESH_TTL_SEC fam tIss).1
        u (hashOpaqueToken R1) REFRESH_TTL_SEC fam now1).2.id now1).1
      (hashOpaqueToken R0)
      = some { id := st0.nextId, user_id := u, token_hash := hashOpaqueToken R0,
               family_id := fam, replaced_by := some (st0.nextId + 1),
               revoked_at := some now1, created_at := tIss,
               expires_at := tIss + REFRESH_TTL_SEC * 1000 } := by
    simp only [findRefreshTokenByHash, markRefreshTokenRotated, createRefreshTokenRecord]
    rw [List.map_append, List.map_append, List.map_cons, List.map_nil, List.map_cons,
      List.map_nil]
    rw [if_pos (show st0.nextId = st0.nextId ∧ (none : Option Int) = none from ⟨rfl, rfl⟩)]
    rw [if_neg (show ¬ (st0.nextId + 1 = st0.nextId ∧ (none : Option Int) = none) from
      fun hcon => Nat.succ_ne_self st0.nextId hcon.1)]
    rw [List.append_assoc]
    rw [find?_append_of_none _ _ _ (fun x hx => by
      rcases List.mem_map.mp hx with ⟨y, hy, rfl⟩
      simp [markFn_token_hash, hF0 y hy])]
    rw [List.singleton_append]
    rw [List.find?_cons_of_pos _ (by simp)]
  have hne1 : st0.nextId + 1 ≠ st0.nextId := Nat.succ_ne_self st0.nextId
  have hid2 : ∀ a ∈ st0.rows, (if a.id = st0.nextId ∧ a.revoked_at = none
      then { a with revoked_at := some now1, replaced_by := some (st0.nextId + 1) }
      else a) = a :=
    fun a ha => if_neg (fun hcon => (Nat.ne_of_lt (hWF a ha)) hcon.1)
  have hst2 : (markRefreshTokenRotated
      (createRefreshTokenRecord
        (createRefreshTokenRecord st0 u (hashOpaqueToken R0) REFRESH_TTL_SEC fam tIss).1
        u (hashOpaqueToken R1) REFRESH_TTL_SEC fam now1).1
      st0.nextId
      (createRefreshTokenRecord
        (createRefreshTokenRecord st0 u (hashOpaqueToken R0) REFRESH_TTL_SEC fam tIss).1
        u (hashOpaqueToken R1) REFRESH_TTL_SEC fam now1).2.id now1).1
      = { rows := st0.rows
            ++ [{ id := st0.nextId, user_id := u, token_hash := hashOpaqueToken R0,
                  family_id := fam, replaced_by := some (st0.nextId + 1),
                  revoked_at := some now1, created_at := tIss,
                  expires_at := tIss + REFRESH_TTL_SEC * 1000 },
                { id := st0.nextId + 1, user_id := u, token_hash := hashOpaqueToken R1,
                  family_id := fam, replaced_by := none, revoked_at := none,
                  created_at := now1, expires_at := now1 + REFRESH_TTL_SEC * 1000 }],
          nextId := st0.nextId + 1 + 1 } := by
    simp [markRefreshTokenRotated, createRefreshTokenRecord, hne1,
      List.map_congr_left hid2]
  have hfind3 : findRefreshTokenByHash
      (revokeRefreshFamily
        { rows := st0.rows
            ++ [{ id := st0.nextId, user_id := u, token_hash := hashOpaqueToken R0,
                  family_id := fam, replaced_by := some (st0.nextId + 1),
                  revoked_at := some now1, created_at := tIss,
                  expires_at := tIss + REFRESH_TTL_SEC * 1000 },
                { id := st0.nextId + 1, user_id := u, token_hash := hashOpaqueToken R1,
                  family_id := fam, replaced_by := none, revoked_at := none,
                  created_at := now1, expires_at := now1 + REFRESH_TTL_SEC * 1000 }],
          nextId := st0.nextId + 1 + 1 } fam now2).1
      (hashOpaqueToken R1)
      = some { id := st0.nextId + 1, user_id := u, token_hash := hashOpaqueToken R1,
               family_id := fam, replaced_by := none, revoked_at := some now2,
               created_at := now1, expires_at := now1 + REFRESH_TTL_SEC * 1000 } := by
    simp only [findRefreshTokenByHash, revokeRefreshFamily]
    rw [List.map_append, List.map_cons, List.map_cons, List.map_nil]
    dsimp only
    rw [if_neg (show ¬ (fam = fam ∧ (some now1 : Option Int) = none) from
      fun hcon => Option.noConfusion hcon.2)]
    rw [if_pos (show fam = fam ∧ (none : Option Int) = none from ⟨rfl, rfl⟩)]
    rw [find?_append_of_none _ _ _ (fun x hx => by
      rcases List.mem_map.mp hx with ⟨y, hy, rfl⟩
      simp [revokeFn_token_hash, hF1 y hy])]
    rw [List.find?_cons_of_neg _ (by simp [hashOpaqueToken, Ne.symm hNe])]
    rw [List.find?_cons_of_pos _ (by simp)]
  refine ⟨(markRefreshTokenRotated
      (createRefreshTokenRecord
        (createRefreshTokenRecord st0 u (hashOpaqueToken R0) REFRESH_TTL_SEC fam tIss).1
        u (hashOpaqueToken R1) REFRESH_TTL_SEC fam now1).1
      st0.nextId
      (createRefreshTokenRecord
        (createRefreshTokenRecord st0 u (hashOpaqueToken R0) REFRESH_TTL_SEC fam tIss).1
        u (hashOpaqueToken R1) REFRESH_TTL_SEC fam now1).2.id now1).1,
    { accessToken := te.1, accessTokenExpiresAt := te.2, refreshToken := R1,
      refreshTokenExpiresAt := now1 / 1000 + REFRESH_TTL_SEC },
    (revokeRefreshFamily
      (markRefreshTokenRotated
      (createRefreshTokenRecord
        (createRefreshTokenRecord st0 u (hashOpaqueToken R0) REFRESH_TTL_SEC fam tIss).1
        u (hashOpaqueToken R1) REFRESH_TTL_SEC fam now1).1
      st0.nextId
      (createRefreshTokenRecord
        (createRefreshTokenRecord st0 u (hashOpaqueToken R0) REFRESH_TTL_SEC fam tIss).1
        u (hashOpaqueToken R1) REFRESH_TTL_SEC fam now1).2.id now1).1
      fam now2).1,
    hstep1, rfl, ?_, rfl, ?_, ?_, ?_, ?_⟩
  · exact refresh_reuse_eq env
      (markRefreshTokenRotated
      (createRefreshTokenRecord
        (createRefreshTokenRecord st0 u (hashOpaqueToken R0) REFRESH_TTL_SEC fam tIss).1
        u (hashOpaqueToken R1) REFRESH_TTL_SEC fam now1).1
      st0.nextId
      (createRefreshTokenRecord
        (createRefreshTokenRecord st0 u (hashOpaqueToken R0) REFRESH_TTL_SEC fam tIss).1
        u (hashOpaqueToken R1) REFRESH_TTL_SEC fam now1).2.id now1).1
      { refreshToken := R0, requestedTenantId := req } R2 j2 now2 _ hfind2 (by simp)
  · exact revokeRefreshFamily_mem_revokes _ fam now2
  · exact revokeRefreshFamily_mem_untouched_revoked _ fam now2
  · exact revokeRefreshFamily_mem_untouched_other _ fam now2
  · rw [hst2]
    exact refresh_stale_eq env _
      { refreshToken := R1, requestedTenantId := req } R3 j3 now3 _ hfind3 rfl
      (Or.inl (by simp))

/-- C1 witness: the single-use rotation scenario run from an empty store
with concrete tokens and clocks. -/
theorem refresh_rotation_single_use_witness :
    ∃ st2 res st3,
      refreshWithToken envW
          (createRefreshTokenRecord { rows := [], nextId := 0 } "user-1"
            (hashOpaqueToken "R0") REFRESH_TTL_SEC "00000000-0000-4000-8000-000000000002" 0).1
          { refreshToken := "R0", requestedTenantId := none } "R1" "j1" 1000
        = (st2, .ok res)
      ∧ res.refreshToken = "R1"
      ∧ refreshWithToken envW st2 { refreshToken := "R0", requestedTenantId := none }
          "R2" "j2" 2000
          = (st3, .error .refreshReuseDetectedError)
      ∧ st3 = (revokeRefreshFamily st2 "00000000-0000-4000-8000-000000000002" 2000).1
      ∧ (∀ r ∈ st2.rows, r.family_id = "00000000-0000-4000-8000-000000000002" →
          r.revoked_at = none → { r with revoked_at := some 2000 } ∈ st3.rows)
      ∧ (∀ r ∈ st2.rows, r.revoked_at ≠ none → r ∈ st3.rows)
      ∧ (∀ r ∈ st2.rows, r.family_id ≠ "00000000-0000-4000-8000-000000000002" → r ∈ st3.rows)
      ∧ refreshWithToken envW st3 { refreshToken := "R1", requestedTenantId := none }
          "R3" "j3" 3000
          = (st3, .error .refreshFailedError) :=
  refresh_rotation_single_use envW { rows := [], nextId := 0 } "user-1"
    "00000000-0000-4000-8000-000000000002" "R0" "R1" "R2" "R3" "j1" "j2" "j3" none ctxW 0 1000 2000 3000
    (by simp) (by simp) (by simp) (by decide) (by decide) rfl (by decide) (by decide)
    (fun t ht _ => Option.noConfusion ht)

/-! ## Claim C3: the access-token claim schema enforced by verification -/

theorem jwtVerify_ok_payload (tok : Jwt) (key : String) (opts : VerifyOptions)
    (now : Int) (p : Payload) (h : jwtVerify tok key opts now = .ok p) :
    p = tok.payload := by
  unfold jwtVerify at h
  split_ifs at h
  injection h with h
  exact h.symm

theorem enforceVer_ok (p1 out : Payload)
    (h : enforceAccessClaims.enforceVer p1 = .ok out) :
    (∀ v, pget p1 .ver = some v → ∃ n, v = .num n ∧ 1 ≤ n)
    ∧ (∃ n, pget out .ver = some (.num n) ∧ 1 ≤ n)
    ∧ pget out .tenant_id = pget p1 .tenant_id
    ∧ pget out .tid = pget p1 .tid
    ∧ pget out .sid = pget p1 .sid := by
  unfold enforceAccessClaims.enforceVer at h
  cases hv : pget p1 .ver with
  | none =>
    simp only [hv] at h
    injection h with h
    subst h
    refine ⟨?_, ?_, ?_, ?_, ?_⟩
    · intro v hv2
      exact Option.noConfusion hv2
    · exact ⟨1, pget_pset_self p1 .ver (.num 1), le_refl 1⟩
    · exact pget_pset_of_ne p1 .ver (.num 1) .tenant_id (by decide)
    · exact pget_pset_of_ne p1 .ver (.num 1) .tid (by decide)
    · exact pget_pset_of_ne p1 .ver (.num 1) .sid (by decide)
  | some v =>
    cases v with
    | num n =>
      simp only [hv] at h
      by_cases hn : n < 1
      · rw [if_pos hn] at h
        exact Except.noConfusion h
      · rw [if_neg hn] at h
        injection h with h
        subst h
        refine ⟨?_, ⟨n, hv, not_lt.mp hn⟩, rfl, rfl, rfl⟩
        intro v hv2
        injection hv2 with hv2
        exact ⟨n, hv2.symm, not_lt.mp hn⟩
    | str s =>
      simp only [hv] at h
      exact Except.noConfusion h
    | strList l =>
      simp only [hv] at h
      exact Except.noConfusion h
    | nul =>
      simp only [hv] at h
      exact Except.noConfusion h

theorem enforceSidVer_ok (p1 out : Payload)
    (h : enforceAccessClaims.enforceSidVer p1 = .ok out) :
    (∀ v, pget p1 .sid = some v → ∃ s, v = .str s ∧ isUuid s = true)
    ∧ enforceAccessClaims.enforceVer p1 = .ok out := by
  unfold enforceAccessClaims.enforceSidVer at h
  cases hs : pget p1 .sid with
  | none =>
    simp only [hs] at h
    refine ⟨?_, h⟩
    intro v hv
    exact Option.noConfusion hv
  | some v =>
    cases v with
    | str s =>
      simp only [hs] at h
      by_cases hg : ¬ isUuid s = true
      · rw [if_pos hg] at h
        exact Except.noConfusion h
      · rw [if_neg hg] at h
        refine ⟨?_, h⟩
        intro v hv
        injection hv with hv
        exact ⟨s, hv.symm, not_not.mp hg⟩
    | num n =>
      simp only [hs] at h
      exact Except.noConfusion h
    | strList l =>
      simp only [hs] at h
      exact Except.noConfusion h
    | nul =>
      simp only [hs] at h
      exact Except.noConfusion h

theorem enforceAccessClaims_ok (p out : Payload)
    (h : enforceAccessClaims p = .ok out) :
    pget p .typ = some (.str "access")
    ∧ (∃ s, pget p .sub = some (.str s) ∧ s ≠ "")
    ∧ (∃ j, pget p .jti = some (.str j) ∧ j ≠ "")
    ∧ (tenantClaimPresent (tenantRawClaim p) = true →
        ∃ t, tenantRawClaim p = some (.str t) ∧ isUuid t = true
          ∧ pget out .tenant_id = some (.str t) ∧ pget out .tid = some (.str t))
    ∧ (tenantClaimPresent (tenantRawClaim p) = false →
        pget out .tenant_id = none ∧ pget out .tid = none)
    ∧ (∀ v, pget p .sid = some v → ∃ s, v = .str s ∧ isUuid s = true)
    ∧ (∀ v, pget p .ver = some v → ∃ n, v = .num n ∧ 1 ≤ n)
    ∧ (∃ n, pget out .ver = some (.num n) ∧ 1 ≤ n) := by
  unfold enforceAccessClaims at h
  by_cases htyp : pget p .typ ≠ some (.str "access")
  · rw [if_pos htyp] at h
    exact Except.noConfusion h
  rw [if_neg htyp] at h
  have htyp2 : pget p .typ = some (.str "access") := not_not.mp htyp
  by_cases hcsub : (match pget p .sub with
      | some (.str s) => decide (s = "")
      | _ => true) = true
  · rw [if_pos hcsub] at h
    exact Except.noConfusion h
  rw [if_neg hcsub] at h
  have hsub : ∃ s, pget p .sub = some (.str s) ∧ s ≠ "" := by
    rcases hps : pget p .sub with _ | v
    · rw [hps] at hcsub
      simp at hcsub
    · cases v with
      | str s =>
        refine ⟨s, rfl, ?_⟩
        rw [hps] at hcsub
        simpa using hcsub
      | num n => rw [hps] at hcsub; simp at hcsub
      | strList l => rw [hps] at hcsub; simp at hcsub
      | nul => rw [hps] at hcsub; simp at hcsub
  by_cases hcjti : (match pget p .jti with
      | some (.str s) => decide (s = "")
      | _ => true) = true
  · rw [if_pos hcjti] at h
    exact Except.noConfusion h
  rw [if_neg hcjti] at h
  have hjti : ∃ j, pget p .jti = some (.str j) ∧ j ≠ "" := by
    rcases hps : pget p .jti with _ | v
    · rw [hps] at hcjti
      simp at hcjti
    · cases v with
      | str s =>
        refine ⟨s, rfl, ?_⟩
        rw [hps] at hcjti
        simpa using hcjti
      | num n => rw [hps] at hcjti; simp at hcjti
      | strList l => rw [hps] at hcjti; simp at hcjti
      | nul => rw [hps] at hcjti; simp at hcjti
  by_cases hpres : tenantClaimPresent (tenantRawClaim p) = true
  · rw [if_pos hpres] at h
    rcases hraw : tenantRawClaim p with _ | v
    · rw [hraw] at hpres
      simp [tenantClaimPresent] at hpres
    · cases v with
      | str t =>
        simp only [hraw] at h
        by_cases hg : ¬ isUuid t = true
        · rw [if_pos hg] at h
          exact Except.noConfusion h
        · rw [if_neg hg] at h
          have huuid := not_not.mp hg
          obtain ⟨hsid1, hver0⟩ := enforceSidVer_ok _ _ h
          obtain ⟨hver1, hver2, hten1, hten2, hsidc⟩ := enforceVer_ok _ _ hver0
          have hp1ten : pget (pset (pset p .tenant_id (.str t)) .tid (.str t)) .tenant_id
              = some (.str t) := by
            rw [pget_pset_of_ne _ _ _ _ (by decide), pget_pset_self]
          have hp1tid : pget (pset (pset p .tenant_id (.str t)) .tid (.str t)) .tid
              = some (.str t) := pget_pset_self _ _ _
          have hp1sid : pget (pset (pset p .tenant_id (.str t)) .tid (.str t)) .sid
              = pget p .sid := by
            rw [pget_pset_of_ne _ _ _ _ (by decide), pget_pset_of_ne _ _ _ _ (by decide)]
          have hp1ver : pget (pset (pset p .tenant_id (.str t)) .tid (.str t)) .ver
              = pget p .ver := by
            rw [pget_pset_of_ne _ _ _ _ (by decide), pget_pset_of_ne _ _ _ _ (by decide)]
          refine ⟨htyp2, hsub, hjti, ?_, ?_, ?_, ?_, hver2⟩
          · intro _
            exact ⟨t, rfl, huuid, by rw [hten1, hp1ten], by rw [hten2, hp1tid]⟩
          · intro hcon
            rw [← hraw, hpres] at hcon
            exact Bool.noConfusion hcon
          · intro v hv
            apply hsid1
            rw [hp1sid]
            exact hv
          · intro v hv
            apply hver1
            rw [hp1ver]
            exact hv
      | num n =>
        simp only [hraw] at h
        exact Except.noConfusion h
      | strList l =>
        simp only [hraw] at h
        exact Except.noConfusion h
      | nul =>
        rw [hraw] at hpres
        simp [tenantClaimPresent] at hpres
  · rw [if_neg hpres] at h
    obtain ⟨hsid1, hver0⟩ := enforceSidVer_ok _ _ h
    obtain ⟨hver1, hver2, hten1, hten2, hsidc⟩ := enforceVer_ok _ _ hver0
    have hp1ten : pget (pdel (pdel p .tenant_id) .tid) .tenant_id = none := by
      rw [pget_pdel_of_ne _ _ _ (by decide), pget_pdel_self]
    have hp1tid : pget (pdel (pdel p .tenant_id) .tid) .tid = none :=
      pget_pdel_self _ _
    have hp1sid : pget (pdel (pdel p .tenant_id) .tid) .sid = pget p .sid := by
      rw [pget_pdel_of_ne _ _ _ (by decide), pget_pdel_of_ne _ _ _ (by decide)]
    have hp1ver : pget (pdel (pdel p .tenant_id) .tid) .ver = pget p .ver := by
      rw [pget_pdel_of_ne _ _ _ (by decide), pget_pdel_of_ne _ _ _ (by decide)]
    refine ⟨htyp2, hsub, hjti, ?_, ?_, ?_, ?_, hver2⟩
    · intro hcon
      exact absurd hcon hpres
    · intro _
      exact ⟨by rw [hten1, hp1ten], by rw [hten2, hp1tid]⟩
    · intro v hv
      apply hsid1
      rw [hp1sid]
      exact hv
    · intro v hv
      apply hver1
      rw [hp1ver]
      exact hv

/-- C3: verifyAccessToken returns a payload only when the signature-trusted
payload has typ "access", non-empty string sub and jti, a tenant claim that
is UUID-shaped whenever present and non-empty (otherwise it is removed from
the returned payload, making the token global), a sid claim that is a
UUID-shaped string whenever present, and a ver claim that is a number at
least 1 whenever present; the returned payload always carries ver at least
1 (defaulted to 1 when absent) and a tenant pair exactly in the
present-and-valid case — no partially-validated payload is returned. -/
theorem verifyAccessToken_claim_schema (env : JwtEnv) (now : Int) (tok : Jwt)
    (out : Payload) (h : verifyAccessToken env now tok = .ok out) :
    pget tok.payload .typ = some (.str "access")
    ∧ (∃ s, pget tok.payload .sub = some (.str s) ∧ s ≠ "")
    ∧ (∃ j, pget tok.payload .jti = some (.str j) ∧ j ≠ "")
    ∧ (tenantClaimPresent (tenantRawClaim tok.payload) = true →
        ∃ t, tenantRawClaim tok.payload = some (.str t) ∧ isUuid t = true
          ∧ pget out .tenant_id = some (.str t) ∧ pget out .tid = some (.str t))
    ∧ (tenantClaimPresent (tenantRawClaim tok.payload) = false →
        pget out .tenant_id = none ∧ pget out .tid = none)
    ∧ (∀ v, pget tok.payload .sid = some v → ∃ s, v = .str s ∧ isUuid s = true)
    ∧ (∀ v, pget tok.payload .ver = some v → ∃ n, v = .num n ∧ 1 ≤ n)
    ∧ (∃ n, pget out .ver = some (.num n) ∧ 1 ≤ n) := by
  have henf : enforceAccessClaims tok.payload = .ok out := by
    simp only [verifyAccessToken] at h
    cases ha : jwtVerify tok env.activeSecret (verifyOptionsOf env) now with
    | ok p =>
      simp only [ha] at h
      rw [← jwtVerify_ok_payload tok env.activeSecret (verifyOptionsOf env) now p ha]
      exact h
    | error e =>
      simp only [ha] at h
      cases hprev : env.previousSecret with
      | none =>
        simp only [hprev] at h
        exact Except.noConfusion h
      | some k =>
        simp only [hprev] at h
        cases hb : jwtVerify tok k (verifyOptionsOf env) now with
        | ok p =>
          simp only [hb] at h
          rw [← jwtVerify_ok_payload tok k (verifyOptionsOf env) now p hb]
          exact h
        | error e2 =>
          simp only [hb] at h
          exact Except.noConfusion h
  exact enforceAccessClaims_ok tok.payload out henf

theorem verifyAccessToken_claim_schema_witness :
    pget c3tokW.payload .typ = some (.str "access")
    ∧ (∃ n, pget c3outW .ver = some (.num n) ∧ 1 ≤ n) := by
  have h : verifyAccessToken c3envW 0 c3tokW = .ok c3outW := by decide
  have hall := verifyAccessToken_claim_schema c3envW 0 c3tokW c3outW h
  exact ⟨hall.1, hall.2.2.2.2.2.2.2⟩

/-! ## Claim C4: tenant-claim round-trip between signing and verification -/

theorem pget_accessClaimsBase_typ (v : Int) (tenant sidC roleC : Option String)
    (rolesC : Option (List String)) (planC : Option String) (scope : String) :
    pget (accessClaimsBase v tenant sidC roleC rolesC planC scope) .typ
      = some (.str "access") := rfl

theorem pget_accessClaimsBase_ver (v : Int) (tenant sidC roleC : Option String)
    (rolesC : Option (List String)) (planC : Option String) (scope : String) :
    pget (accessClaimsBase v tenant sidC roleC rolesC planC scope) .ver
      = some (.num v) := rfl

theorem pget_accessClaimsBase_tenant (v : Int) (t : String)
    (sidC roleC : Option String) (rolesC : Option (List String))
    (planC : Option String) (scope : String) :
    pget (accessClaimsBase v (some t) sidC roleC rolesC planC scope) .tenant_id
      = some (.str t) := rfl

theorem pget_accessClaimsBase_tid (v : Int) (t : String)
    (sidC roleC : Option String) (rolesC : Option (List String))
    (planC : Option String) (scope : String) :
    pget (accessClaimsBase v (some t) sidC roleC rolesC planC scope) .tid
      = some (.str t) := rfl

theorem pget_accessClaimsBase_sid (v : Int) (tenant : Option String) (s : String)
    (roleC : Option String) (rolesC : Option (List String))
    (planC : Option String) (scope : String) :
    pget (accessClaimsBase v tenant (some s) roleC rolesC planC scope) .sid
      = some (.str s) := by
  cases tenant <;> rfl

theorem pget_accessClaimsBase_none (v : Int) (tenant sidC roleC : Option String)
    (rolesC : Option (List String)) (planC : Option String) (scope : String)
    (k : ClaimKey) (h1 : k ≠ .typ) (h2 : k ≠ .ver)
    (h3 : tenant = none ∨ (k ≠ .tenant_id ∧ k ≠ .tid))
    (h4 : sidC = none ∨ k ≠ .sid)
    (h5 : k ≠ .role) (h6 : k ≠ .roles) (h7 : k ≠ .plan) (h8 : k ≠ .scope) :
    pget (accessClaimsBase v tenant sidC roleC rolesC planC scope) k = none := by
  apply pget_eq_none_of_forall
  unfold accessClaimsBase
  refine List.forall_mem_append.mpr ⟨List.forall_mem_append.mpr
    ⟨List.forall_mem_append.mpr ⟨List.forall_mem_append.mpr
       ⟨List.forall_mem_append.mpr ⟨List.forall_mem_append.mpr
          ⟨?_, ?_⟩, ?_⟩, ?_⟩, ?_⟩, ?_⟩, ?_⟩
  · intro e he
    simp at he
    rcases he with rfl | rfl
    · exact Ne.symm h1
    · exact Ne.symm h2
  · rcases h3 with rfl | ⟨h3a, h3b⟩
    · intro e he
      simp at he
    · cases tenant with
      | none => intro e he; simp at he
      | some t =>
        intro e he
        simp at he
        rcases he with rfl | rfl
        · exact Ne.symm h3a
        · exact Ne.symm h3b
  · rcases h4 with rfl | h4b
    · intro e he
      simp at he
    · cases sidC with
      | none => intro e he; simp at he
      | some s =>
        intro e he
        simp at he
        subst he
        exact Ne.symm h4b
  · cases roleC with
    | none => intro e he; simp at he
    | some r =>
      intro e he
      by_cases hr : r = ""
      · simp [hr] at he
      · simp [hr] at he
        subst he
        exact Ne.symm h5
  · cases rolesC with
    | none => intro e he; simp at he
    | some rs =>
      intro e he
      simp at he
      subst he
      exact Ne.symm h6
  · cases planC with
    | none => intro e he; simp at he
    | some pl =>
      intro e he
      by_cases hp : pl = ""
      · simp [hp] at he
      · simp [hp] at he
        subst he
        exact Ne.symm h7
  · intro e he
    by_cases hsc : jsTrim scope = ""
    · simp [hsc] at he
    · simp [hsc] at he
      subst he
      exact Ne.symm h8

theorem presentNonEmpty_some_ne (o : Option String) (t : String)
    (h : presentNonEmpty o = some t) : t ≠ "" := by
  unfold presentNonEmpty at h
  cases o with
  | none => exact Option.noConfusion h
  | some s =>
    have h2 : (if s = "" then none else some s) = some t := h
    split_ifs at h2 with hs
    injection h2 with h2
    subst h2
    exact hs

set_option maxHeartbeats 1600000 in
theorem signAccessToken_ok_payload (env : JwtEnv) (now : Int) (jti sub : String)
    (tenantId : Option String) (ttlSec : Int) (extra : AccessTokenExtraClaims)
    (tok : Jwt) (expiry : Int)
    (h : signAccessToken env now jti sub tenantId ttlSec extra = .ok (tok, expiry)) :
    sub ≠ ""
    ∧ uuidGuardFails (presentNonEmpty tenantId) = false
    ∧ uuidGuardFails (presentNonEmpty extra.sid) = false
    ∧ expiry = now + ttlSec
    ∧ tok.sigKey = env.activeSecret
    ∧ tok.sigPayload = tok.payload
    ∧ tok.payload =
        pset (pset (pset (pset (pset (pset
          (accessClaimsBase (extra.ver.getD 1) (presentNonEmpty tenantId)
            (presentNonEmpty extra.sid) extra.role extra.roles extra.plan
            env.defaultScope)
          .sub (.str sub)) .jti (.str jti)) .iat (.num now)) .exp (.num expiry))
          .iss (.str env.issuer)) .aud (.str env.audience) := by
  unfold signAccessToken at h
  by_cases h1 : sub = ""
  · rw [if_pos h1] at h
    exact Except.noConfusion h
  rw [if_neg h1] at h
  by_cases h2 : uuidGuardFails (presentNonEmpty tenantId) = true
  · rw [if_pos h2] at h
    exact Except.noConfusion h
  rw [if_neg h2] at h
  by_cases h3 : uuidGuardFails (presentNonEmpty extra.sid) = true
  · rw [if_pos h3] at h
    exact Except.noConfusion h
  rw [if_neg h3] at h
  rw [Bool.not_eq_true] at h2 h3
  injection h with h
  injection h with h4 h5
  subst h4
  subst h5
  exact ⟨h1, h2, h3, rfl, rfl, rfl, rfl⟩

theorem jwtVerify_sig_mismatch (tok : Jwt) (key : String) (opts : VerifyOptions)
    (now : Int) (h : tok.sigPayload ≠ tok.payload) :
    jwtVerify tok key opts now = .error "signature_verification_failed" := by
  unfold jwtVerify
  rw [if_pos (Or.inr h)]

theorem verifyAccessToken_sig_mismatch (env : JwtEnv) (now : Int) (tok : Jwt)
    (h : tok.sigPayload ≠ tok.payload) :
    verifyAccessToken env now tok = .error "signature_verification_failed" := by
  have hjv : ∀ key, jwtVerify tok key (verifyOptionsOf env) now
      = .error "signature_verification_failed" :=
    fun key => jwtVerify_sig_mismatch tok key (verifyOptionsOf env) now h
  simp only [verifyAccessToken, hjv]
  cases env.previousSecret <;> rfl

theorem enforceSidVer_compute (p1 : Payload)
    (hsid : ∀ v, pget p1 .sid = some v → ∃ s, v = .str s ∧ isUuid s = true)
    (hver : ∃ n, pget p1 .ver = some (.num n) ∧ 1 ≤ n) :
    enforceAccessClaims.enforceSidVer p1 = .ok p1 := by
  obtain ⟨n, hn, hn1⟩ := hver
  have hn2 : ¬ n < 1 := not_lt.mpr hn1
  cases hs : pget p1 .sid with
  | none =>
    simp [enforceAccessClaims.enforceSidVer, enforceAccessClaims.enforceVer,
      hs, hn, hn2]
  | some v =>
    obtain ⟨s, rfl, hu⟩ := hsid v hs
    simp [enforceAccessClaims.enforceSidVer, enforceAccessClaims.enforceVer,
      hs, hn, hu, hn2]

theorem enforceAccessClaims_present (p : Payload) (t : String)
    (htyp : pget p .typ = some (.str "access"))
    (hsub : ∃ s, pget p .sub = some (.str s) ∧ s ≠ "")
    (hjti : ∃ j, pget p .jti = some (.str j) ∧ j ≠ "")
    (hsid : ∀ v, pget p .sid = some v → ∃ s, v = .str s ∧ isUuid s = true)
    (hver : ∃ n, pget p .ver = some (.num n) ∧ 1 ≤ n)
    (hraw : tenantRawClaim p = some (.str t)) (hne : t ≠ "")
    (huuid : isUuid t = true) :
    enforceAccessClaims p
      = .ok (pset (pset p .tenant_id (.str t)) .tid (.str t)) := by
  obtain ⟨s, hs, hsne⟩ := hsub
  obtain ⟨j, hj, hjne⟩ := hjti
  have hsid1 : ∀ v, pget (pset (pset p .tenant_id (.str t)) .tid (.str t)) .sid
      = some v → ∃ s2, v = .str s2 ∧ isUuid s2 = true := by
    intro v hv
    apply hsid
    rw [pget_pset_of_ne _ _ _ _ (by decide), pget_pset_of_ne _ _ _ _ (by decide)]
      at hv
    exact hv
  have hver1 : ∃ n, pget (pset (pset p .tenant_id (.str t)) .tid (.str t)) .ver
      = some (.num n) ∧ 1 ≤ n := by
    obtain ⟨n, hn, hn1⟩ := hver
    refine ⟨n, ?_, hn1⟩
    rw [pget_pset_of_ne _ _ _ _ (by decide), pget_pset_of_ne _ _ _ _ (by decide)]
    exact hn
  have hmain := enforceSidVer_compute _ hsid1 hver1
  simp [enforceAccessClaims, htyp, hs, hsne, hj, hjne, hraw, hne, huuid,
    tenantClaimPresent, hmain]

theorem enforceAccessClaims_absent (p : Payload)
    (htyp : pget p .typ = some (.str "access"))
    (hsub : ∃ s, pget p .sub = some (.str s) ∧ s ≠ "")
    (hjti : ∃ j, pget p .jti = some (.str j) ∧ j ≠ "")
    (hsid : ∀ v, pget p .sid = some v → ∃ s, v = .str s ∧ isUuid s = true)
    (hver : ∃ n, pget p .ver = some (.num n) ∧ 1 ≤ n)
    (hraw : tenantRawClaim p = none) :
    enforceAccessClaims p = .ok (pdel (pdel p .tenant_id) .tid) := by
  obtain ⟨s, hs, hsne⟩ := hsub
  obtain ⟨j, hj, hjne⟩ := hjti
  have hsid1 : ∀ v, pget (pdel (pdel p .tenant_id) .tid) .sid = some v →
      ∃ s2, v = .str s2 ∧ isUuid s2 = true := by
    intro v hv
    apply hsid
    rw [pget_pdel_of_ne _ _ _ (by decide), pget_pdel_of_ne _ _ _ (by decide)] at hv
    exact hv
  have hver1 : ∃ n, pget (pdel (pdel p .tenant_id) .tid) .ver
      = some (.num n) ∧ 1 ≤ n := by
    obtain ⟨n, hn, hn1⟩ := hver
    refine ⟨n, ?_, hn1⟩
    rw [pget_pdel_of_ne _ _ _ (by decide), pget_pdel_of_ne _ _ _ (by decide)]
    exact hn
  have hmain := enforceSidVer_compute _ hsid1 hver1
  simp [enforceAccessClaims, htyp, hs, hsne, hj, hjne, hraw,
    tenantClaimPresent, hmain]

theorem pget_signed_chain (B : Payload) (sub jti : String) (now expiry : Int)
    (iss aud : String) (k : ClaimKey)
    (h1 : k ≠ .sub) (h2 : k ≠ .jti) (h3 : k ≠ .iat) (h4 : k ≠ .exp)
    (h5 : k ≠ .iss) (h6 : k ≠ .aud) :
    pget (pset (pset (pset (pset (pset (pset B .sub (.str sub)) .jti (.str jti))
      .iat (.num now)) .exp (.num expiry)) .iss (.str iss)) .aud (.str aud)) k
      = pget B k := by
  rw [pget_pset_of_ne _ _ _ _ h6, pget_pset_of_ne _ _ _ _ h5,
    pget_pset_of_ne _ _ _ _ h4, pget_pset_of_ne _ _ _ _ h3,
    pget_pset_of_ne _ _ _ _ h2, pget_pset_of_ne _ _ _ _ h1]

theorem pget_signed_chain_sub (B : Payload) (sub jti : String) (now expiry : Int)
    (iss aud : String) :
    pget (pset (pset (pset (pset (pset (pset B .sub (.str sub)) .jti (.str jti))
      .iat (.num now)) .exp (.num expiry)) .iss (.str iss)) .aud (.str aud)) .sub
      = some (.str sub) := by
  rw [pget_pset_of_ne _ _ _ _ (by decide), pget_pset_of_ne _ _ _ _ (by decide),
    pget_pset_of_ne _ _ _ _ (by decide), pget_pset_of_ne _ _ _ _ (by decide),
    pget_pset_of_ne _ _ _ _ (by decide)]
  exact pget_pset_self _ _ _

theorem pget_signed_chain_jti (B : Payload) (sub jti : String) (now expiry : Int)
    (iss aud : String) :
    pget (pset (pset (pset (pset (pset (pset B .sub (.str sub)) .jti (.str jti))
      .iat (.num now)) .exp (.num expiry)) .iss (.str iss)) .aud (.str aud)) .jti
      = some (.str jti) := by
  rw [pget_pset_of_ne _ _ _ _ (by decide), pget_pset_of_ne _ _ _ _ (by decide),
    pget_pset_of_ne _ _ _ _ (by decide), pget_pset_of_ne _ _ _ _ (by decide)]
  exact pget_pset_self _ _ _

theorem pget_signed_chain_exp (B : Payload) (sub jti : String) (now expiry : Int)
    (iss aud : String) :
    pget (pset (pset (pset (pset (pset (pset B .sub (.str sub)) .jti (.str jti))
      .iat (.num now)) .exp (.num expiry)) .iss (.str iss)) .aud (.str aud)) .exp
      = some (.num expiry) := by
  rw [pget_pset_of_ne _ _ _ _ (by decide), pget_pset_of_ne _ _ _ _ (by decide)]
  exact pget_pset_self _ _ _

theorem pget_signed_chain_iss (B : Payload) (sub jti : String) (now expiry : Int)
    (iss aud : String) :
    pget (pset (pset (pset (pset (pset (pset B .sub (.str sub)) .jti (.str jti))
      .iat (.num now)) .exp (.num expiry)) .iss (.str iss)) .aud (.str aud)) .iss
      = some (.str iss) := by
  rw [pget_pset_of_ne _ _ _ _ (by decide)]
  exact pget_pset_self _ _ _

theorem pget_signed_chain_aud (B : Payload) (sub jti : String) (now expiry : Int)
    (iss aud : String) :
    pget (pset (pset (pset (pset (pset (pset B .sub (.str sub)) .jti (.str jti))
      .iat (.num now)) .exp (.num expiry)) .iss (.str iss)) .aud (.str aud)) .aud
      = some (.str aud) :=
  pget_pset_self _ _ _

/-- C4 (corrected): for every access token signAccessToken issues with a
fresh non-empty jti and a well-formed ver claim, verification inside the
token's validity window succeeds, and the returned payload carries a
tenant_id/tid pair exactly when a non-empty tenant id was supplied at
issuance; the returned tenant value is UUID-shaped but is the supplied
string verbatim — the code never lowercases it, so the spec's "canonical
lowercase UUID form" does not hold (see the counterexample).  A token whose
payload was tampered with after signing fails verification outright with a
signature error, under the active as well as the previous key. -/
theorem sign_verify_tenant_roundtrip (env : JwtEnv) (now now2 : Int)
    (jti sub : String) (tenantId : Option String) (ttlSec : Int)
    (extra : AccessTokenExtraClaims) (tok : Jwt) (expiry : Int)
    (hsign : signAccessToken env now jti sub tenantId ttlSec extra
      = .ok (tok, expiry))
    (hjti : jti ≠ "")
    (hver : ∀ v, extra.ver = some v → 1 ≤ v)
    (hwin : now2 - env.clockSkewSec < now + ttlSec) :
    ∃ out, verifyAccessToken env now2 tok = .ok out
      ∧ (∀ t, presentNonEmpty tenantId = some t →
          pget out .tenant_id = some (.str t) ∧ pget out .tid = some (.str t)
            ∧ isUuid t = true)
      ∧ (presentNonEmpty tenantId = none →
          pget out .tenant_id = none ∧ pget out .tid = none)
      ∧ (∀ p2, p2 ≠ tok.sigPayload →
          verifyAccessToken env now2
            { payload := p2, sigKey := tok.sigKey, sigPayload := tok.sigPayload }
            = .error "signature_verification_failed") := by
  obtain ⟨hsubne, hg1, hg2, hexpiry, hkey, hgen, hpay⟩ :=
    signAccessToken_ok_payload env now jti sub tenantId ttlSec extra tok expiry hsign
  have hP_typ : pget tok.payload .typ = some (.str "access") := by
    rw [hpay, pget_signed_chain _ _ _ _ _ _ _ _ (by decide) (by decide) (by decide)
      (by decide) (by decide) (by decide)]
    exact pget_accessClaimsBase_typ _ _ _ _ _ _ _
  have hP_ver : pget tok.payload .ver = some (.num (extra.ver.getD 1)) := by
    rw [hpay, pget_signed_chain _ _ _ _ _ _ _ _ (by decide) (by decide) (by decide)
      (by decide) (by decide) (by decide)]
    exact pget_accessClaimsBase_ver _ _ _ _ _ _ _
  have hP_nbf : pget tok.payload .nbf = none := by
    rw [hpay, pget_signed_chain _ _ _ _ _ _ _ _ (by decide) (by decide) (by decide)
      (by decide) (by decide) (by decide)]
    exact pget_accessClaimsBase_none _ _ _ _ _ _ _ _ (by decide) (by decide)
      (Or.inr ⟨by decide, by decide⟩) (Or.inr (by decide)) (by decide) (by decide)
      (by decide) (by decide)
  have hP_sub : pget tok.payload .sub = some (.str sub) := by
    rw [hpay]
    exact pget_signed_chain_sub _ _ _ _ _ _ _
  have hP_jti : pget tok.payload .jti = some (.str jti) := by
    rw [hpay]
    exact pget_signed_chain_jti _ _ _ _ _ _ _
  have hP_exp : pget tok.payload .exp = some (.num expiry) := by
    rw [hpay]
    exact pget_signed_chain_exp _ _ _ _ _ _ _
  have hP_iss : pget tok.payload .iss = some (.str env.issuer) := by
    rw [hpay]
    exact pget_signed_chain_iss _ _ _ _ _ _ _
  have hP_aud : pget tok.payload .aud = some (.str env.audience) := by
    rw [hpay]
    exact pget_signed_chain_aud _ _ _ _ _ _ _
  have hP_verge : 1 ≤ extra.ver.getD 1 := by
    cases hv : extra.ver with
    | none => simp
    | some v => simpa using hver v hv
  have hsid_shape : ∀ w, pget tok.payload .sid = some w →
      ∃ s, w = .str s ∧ isUuid s = true := by
    intro w hw
    rw [hpay, pget_signed_chain _ _ _ _ _ _ _ _ (by decide) (by decide) (by decide)
      (by decide) (by decide) (by decide)] at hw
    cases hsc : presentNonEmpty extra.sid with
    | none =>
      rw [hsc, pget_accessClaimsBase_none _ _ _ _ _ _ _ _ (by decide) (by decide)
        (Or.inr ⟨by decide, by decide⟩) (Or.inl rfl) (by decide) (by decide)
        (by decide) (by decide)] at hw
      exact Option.noConfusion hw
    | some s =>
      rw [hsc, pget_accessClaimsBase_sid] at hw
      injection hw with hw
      refine ⟨s, hw.symm, ?_⟩
      rw [hsc] at hg2
      simpa [uuidGuardFails] using hg2
  have hlt : ¬ (expiry ≤ now2 - env.clockSkewSec) := by omega
  have hjv : jwtVerify tok env.activeSecret (verifyOptionsOf env) now2
      = .ok tok.payload := by
    simp [jwtVerify, verifyOptionsOf, hkey, hgen, hP_iss, hP_aud, hP_nbf, hP_exp, hlt]
  have hmain : verifyAccessToken env now2 tok = enforceAccessClaims tok.payload := by
    simp only [verifyAccessToken, hjv]
  have htamper : ∀ p2, p2 ≠ tok.sigPayload →
      verifyAccessToken env now2
        { payload := p2, sigKey := tok.sigKey, sigPayload := tok.sigPayload }
        = .error "signature_verification_failed" := by
    intro p2 hp2
    exact verifyAccessToken_sig_mismatch env now2 _ (Ne.symm hp2)
  rcases hten : presentNonEmpty tenantId with _ | t
  · have hb_ten : pget tok.payload .tenant_id = none := by
      rw [hpay, pget_signed_chain _ _ _ _ _ _ _ _ (by decide) (by decide) (by decide)
        (by decide) (by decide) (by decide), hten]
      exact pget_accessClaimsBase_none _ _ _ _ _ _ _ _ (by decide) (by decide)
        (Or.inl rfl) (Or.inr (by decide)) (by decide) (by decide) (by decide)
        (by decide)
    have hb_tid : pget tok.payload .tid = none := by
      rw [hpay, pget_signed_chain _ _ _ _ _ _ _ _ (by decide) (by decide) (by decide)
        (by decide) (by decide) (by decide), hten]
      exact pget_accessClaimsBase_none _ _ _ _ _ _ _ _ (by decide) (by decide)
        (Or.inl rfl) (Or.inr (by decide)) (by decide) (by decide) (by decide)
        (by decide)
    have hraw : tenantRawClaim tok.payload = none := by
      unfold tenantRawClaim
      simp only [hb_ten, hb_tid]
    have henf := enforceAccessClaims_absent tok.payload hP_typ ⟨sub, hP_sub, hsubne⟩
      ⟨jti, hP_jti, hjti⟩ hsid_shape ⟨extra.ver.getD 1, hP_ver, hP_verge⟩ hraw
    refine ⟨pdel (pdel tok.payload .tenant_id) .tid, ?_, ?_, ?_, htamper⟩
    · rw [hmain, henf]
    · intro t ht
      exact Option.noConfusion ht
    · intro _
      constructor
      · rw [pget_pdel_of_ne _ _ _ (by decide), pget_pdel_self]
      · exact pget_pdel_self _ _
  · have htne : t ≠ "" := presentNonEmpty_some_ne tenantId t hten
    have huuid : isUuid t = true := by
      rw [hten] at hg1
      simpa [uuidGuardFails] using hg1
    have hb_ten : pget tok.payload .tenant_id = some (.str t) := by
      rw [hpay, pget_signed_chain _ _ _ _ _ _ _ _ (by decide) (by decide) (by decide)
        (by decide) (by decide) (by decide), hten]
      exact pget_accessClaimsBase_tenant _ _ _ _ _ _ _
    have hraw : tenantRawClaim tok.payload = some (.str t) := by
      unfold tenantRawClaim
      simp only [hb_ten]
    have henf := enforceAccessClaims_present tok.payload t hP_typ ⟨sub, hP_sub, hsubne⟩
      ⟨jti, hP_jti, hjti⟩ hsid_shape ⟨extra.ver.getD 1, hP_ver, hP_verge⟩ hraw htne
      huuid
    refine ⟨pset (pset tok.payload .tenant_id (.str t)) .tid (.str t), ?_, ?_, ?_,
      htamper⟩
    · rw [hmain, henf]
    · intro t2 ht2
      injection ht2 with ht2
      subst ht2
      refine ⟨?_, pget_pset_self _ _ _, huuid⟩
      rw [pget_pset_of_ne _ _ _ _ (by decide)]
      exact pget_pset_self _ _ _
    · intro hcon
      exact Option.noConfusion hcon

theorem sign_verify_tenant_roundtrip_witness :
    ∃ out, verifyAccessToken c4envW 0 c4tokW = .ok out
      ∧ (∀ t, presentNonEmpty (some c4tenW) = some t →
          pget out .tenant_id = some (.str t) ∧ pget out .tid = some (.str t)
            ∧ isUuid t = true)
      ∧ (presentNonEmpty (some c4tenW) = none →
          pget out .tenant_id = none ∧ pget out .tid = none)
      ∧ (∀ p2, p2 ≠ c4tokW.sigPayload →
          verifyAccessToken c4envW 0
            { payload := p2, sigKey := c4tokW.sigKey, sigPayload := c4tokW.sigPayload }
            = .error "signature_verification_failed") :=
  sign_verify_tenant_roundtrip c4envW 0 0 "j4" "u4" (some c4tenW) 900 {} c4tokW 900
    (by decide) (by decide) (fun v hv => Option.noConfusion hv) (by decide)

/-- C4 counterexample to "canonical lowercase UUID form": a token issued
for the uppercase UUID-shaped tenant id c4tenW verifies successfully and
returns the tenant claim verbatim, which is not lowercase. -/
theorem sign_verify_tenant_not_lowercased :
    signAccessToken c4envW 0 "j4" "u4" (some c4tenW) 900 {} = .ok (c4tokW, 900)
    ∧ verifyAccessToken c4envW 0 c4tokW = .ok c4outW
    ∧ pget c4outW .tenant_id = some (.str c4tenW)
    ∧ jsToLower c4tenW ≠ c4tenW := by
  refine ⟨by decide, by decide, by decide, by decide⟩

end AuthService
